import Mathlib

/-!
# fancontrol (C port) — a shallow embedding of `main.c`

The program is embedded as executable Lean definitions:

* C strings are lists of characters (the bytes before the terminating NUL);
* `int` values are integers, reduced to 32 bits by `wrap32` after every
  arithmetic operation of the source;
* the sysfs tree and the file system are an abstract attribute store
  (`Sysfs σ`), and code that performs system calls is a state transformer
  (`Proc σ α`) that also records the calls it makes and may end the process
  through `exit`.
-/

namespace Fancontrol

/-- C strings: the bytes in front of the terminating NUL. -/
abbrev Str := List Char

/-! ## Machine integers and libc helpers -/

/-- Reduction of an integer to a 32-bit two's complement `int`. -/
def wrap32 (x : Int) : Int := (x + 2147483648) % 4294967296 - 2147483648

/-- The integer is representable as a 32-bit `int`. -/
def inInt32 (x : Int) : Prop := -2147483648 ≤ x ∧ x ≤ 2147483647

instance (x : Int) : Decidable (inInt32 x) := by unfold inInt32; infer_instance

/-- The macro `startswith(s1, s2)`, that is `strncmp(s1, s2, strlen(s2)) == 0`. -/
def startswith (s1 s2 : Str) : Bool := s2.isPrefixOf s1

/-- What `snprintf(buf, 64, ...)` leaves in a 64-byte buffer: at most 63 bytes. -/
def snprintf64 (s : Str) : Str := s.take 63

/-- C `isspace` in the "C" locale. -/
def isspace (c : Char) : Bool :=
  c.toNat = 32 || (9 ≤ c.toNat && c.toNat ≤ 13)

/-- C `isdigit`. -/
def isdigit (c : Char) : Bool := 48 ≤ c.toNat && c.toNat ≤ 57

/-- Value of the longest prefix of decimal digits, continuing from `acc`. -/
def digitsVal : Nat → Str → Nat
  | acc, [] => acc
  | acc, c :: cs => if isdigit c then digitsVal (acc * 10 + (c.toNat - 48)) cs else acc

/-- Clamping of `strtol` to the range of a 64-bit `long`. -/
def clampLong (x : Int) : Int :=
  if x > 9223372036854775807 then 9223372036854775807
  else if x < -9223372036854775808 then -9223372036854775808
  else x

/-- The part of `strtol` after leading white space: optional sign, then digits.
`none` when there is no digit (no conversion is performed). -/
def strtolSigned : Str → Option Int
  | [] => none
  | c :: cs =>
    if c = '-' then
      match cs with
      | d :: _ => if isdigit d then some (clampLong (-(digitsVal 0 cs : Int))) else none
      | [] => none
    else if c = '+' then
      match cs with
      | d :: _ => if isdigit d then some (clampLong (digitsVal 0 cs)) else none
      | [] => none
    else if isdigit c then some (clampLong (digitsVal 0 (c :: cs)))
    else none

/-- The call `strtol(s, &p, 10)`: the converted value, or `none` when `p == s`
(no conversion could be performed). -/
def strtol : Str → Option Int
  | [] => none
  | c :: cs => if isspace c then strtol cs else strtolSigned (c :: cs)

/-- The call `atoi(s)`, that is `(int) strtol(s, NULL, 10)`. -/
def atoi (s : Str) : Int :=
  match strtol s with
  | some v => wrap32 v
  | none => 0

/-! ## Configuration -/

/-- One entry of `config.afc[]` whose `pwm` pointer is set. -/
structure Mapping where
  pwm : Str
  temp : Str
  fan : Option Str
  mintemp : Int
  maxtemp : Int
  minstart : Int
  minstop : Int
  minpwm : Int
  maxpwm : Int
  deriving DecidableEq, Repr

/-- The global `config`: `afc` lists the array entries whose `pwm` is not NULL
(`LoadConfig` fills the array from index 0 without gaps). -/
structure Config where
  interval : Int
  devpath : Option Str
  devname : Option Str
  afc : List Mapping
  deriving DecidableEq, Repr

/-! ## The attribute store and processes -/

/-- The `mode` argument of `access`. -/
inductive Mode
  | F_OK
  | R_OK
  | W_OK
  deriving DecidableEq, Repr

/-- An abstract file system / sysfs tree with states `σ`. -/
structure Sysfs (σ : Type) where
  /-- Whether `access(path, mode) == 0`. -/
  access : σ → Str → Mode → Bool
  /-- Whether `open(path, O_WRONLY | O_CREAT, 0644)` succeeds. -/
  openW : σ → Str → Bool
  /-- The state after the decimal text of `value` was written to an opened `path`. -/
  write : σ → Str → Int → σ
  /-- The bytes delivered by `open(path, O_RDONLY)` and `read`; `none` when `open` fails. -/
  read : σ → Str → Option Str
  /-- The state after `unlink(path)`. -/
  unlink : σ → Str → σ

/-- System calls made by the program, as recorded in a run. -/
inductive Event
  | access (path : Str) (mode : Mode)
  | rfile (path : Str)
  | wfile (path : Str) (value : Int)
  | usleep (us : Int)
  | unlink (path : Str)
  | exit (status : Int)
  | accessNull (mode : Mode)
  deriving DecidableEq, Repr

/-- Outcome of running a piece of the program: the value it returns, or the
status with which it ended the process; the final store; the calls made. -/
structure Out (σ α : Type) where
  res : Except Int α
  st : σ
  ev : List Event

instance {ε α : Type} [DecidableEq ε] [DecidableEq α] : DecidableEq (Except ε α)
  | .ok a, .ok b =>
    if h : a = b then isTrue (by rw [h]) else isFalse (fun e => h (by cases e; rfl))
  | .error a, .error b =>
    if h : a = b then isTrue (by rw [h]) else isFalse (fun e => h (by cases e; rfl))
  | .ok _, .error _ => isFalse (fun e => by cases e)
  | .error _, .ok _ => isFalse (fun e => by cases e)

/-- Code of the program that acts on the store. -/
def Proc (σ α : Type) : Type := σ → Out σ α

/-- Return a value without any effect. -/
def Proc.pure {σ α : Type} (a : α) : Proc σ α := fun s => ⟨.ok a, s, []⟩

/-- Sequencing; nothing runs after the process has exited. -/
def Proc.bind {σ α β : Type} (m : Proc σ α) (f : α → Proc σ β) : Proc σ β := fun s =>
  match (m s).res with
  | .ok a => ⟨(f a (m s).st).res, (f a (m s).st).st, (m s).ev ++ (f a (m s).st).ev⟩
  | .error c => ⟨.error c, (m s).st, (m s).ev⟩

instance {σ : Type} : Monad (Proc σ) where
  pure := Proc.pure
  bind := Proc.bind

/-- Record one call that leaves the store unchanged. -/
def emit {σ : Type} (e : Event) : Proc σ Unit := fun s => ⟨.ok (), s, [e]⟩

/-- The call `exit(status)`. -/
def exit {σ α : Type} (status : Int) : Proc σ α := fun s => ⟨.error status, s, [Event.exit status]⟩

/-- The test `access(path, mode) == 0`. -/
def access {σ : Type} (io : Sysfs σ) (path : Str) (mode : Mode) : Proc σ Bool := fun s =>
  ⟨.ok (io.access s path mode), s, [Event.access path mode]⟩

/-- The test `access(path, mode) == 0` for a pointer that may be NULL: with a
NULL pointer the call fails (`EFAULT`). -/
def accessPtr {σ : Type} (io : Sysfs σ) (path : Option Str) (mode : Mode) : Proc σ Bool :=
  match path with
  | some path => access io path mode
  | none => fun s => ⟨.ok false, s, [Event.accessNull mode]⟩

/-- The call `unlink(path)`. -/
def unlink {σ : Type} (io : Sysfs σ) (path : Str) : Proc σ Unit := fun s =>
  ⟨.ok (), io.unlink s path, [Event.unlink path]⟩

/-- The call `usleep(us)`. -/
def usleep {σ : Type} (us : Int) : Proc σ Unit := emit (Event.usleep us)

/-- The function `wfile`: -1 when the file cannot be opened, else the text is written
(the result of `write` itself is not looked at) and 0 is returned. -/
def wfile {σ : Type} (io : Sysfs σ) (path : Str) (value : Int) : Proc σ Int := fun s =>
  ⟨.ok (if io.openW s path then 0 else -1),
   if io.openW s path then io.write s path value else s,
   [Event.wfile path value]⟩

/-- The value `rfile` computes from what `open` and `read` deliver: -1 when
the file cannot be opened; else `strtol` runs on the 12-byte buffer `tmp`
(zero-filled beyond the bytes read; a number is taken to end with the buffer),
the result being -1 when nothing was converted and else the `long` value
stored in an `int`. -/
def rfileValue : Option Str → Int
  | none => -1
  | some bytes =>
    match strtol (bytes.take 12) with
    | none => -1
    | some v => wrap32 v

/-- The function `rfile`. -/
def rfile {σ : Type} (io : Sysfs σ) (path : Str) : Proc σ Int := fun s =>
  ⟨.ok (rfileValue (io.read s path)), s, [Event.rfile path]⟩

/-- The constant `PIDFILE`. -/
def PIDFILE : Str := "/var/run/fancontrol.pid".toList

/-- The constant `SECS_TO_US`, defined as `(1000 * 1000)`. -/
def SECS_TO_US : Int := 1000 * 1000

/-- The name built by `snprintf(enable, sizeof(enable), "%s_enable", name)`. -/
def enableName (name : Str) : Str := snprintf64 (name ++ "_enable".toList)

/-- The function `pwmdisable`; the result 0 is success, -1 is "stuck". -/
def pwmdisable {σ : Type} (io : Sysfs σ) (name : Str) : Proc σ Int := do
  let enable := enableName name
  -- No enable file? Just set to max
  if !(← access io enable Mode.F_OK) then
    let _ ← wfile io name 255
    return 0
  -- Try pwmN_enable=0
  let _ ← wfile io enable 0
  if (← rfile io enable) = 0 then
    return 0 -- Success
  -- It didn't work, try pwmN_enable=1 pwmN=255
  let _ ← wfile io enable 1
  let _ ← wfile io name 255
  let read ← rfile io enable
  if read = 1 then
    if (← rfile io name) ≥ 190 then
      return 0 -- Success
  return (-1)

/-- The function `pwmenable`. -/
def pwmenable {σ : Type} (io : Sysfs σ) (name : Str) : Proc σ Int := do
  let enable := enableName name
  if (← access io enable Mode.F_OK) then
    if (← wfile io enable 1) = -1 then
      return (-1)
  let _ ← wfile io name 255
  return 0

/-- The loop of `restorefans` over the configured channels. -/
def restorefans.loop {σ : Type} (io : Sysfs σ) : List Mapping → Proc σ Unit
  | [] => pure ()
  | m :: ms => do
    let _ ← pwmdisable io m.pwm
    restorefans.loop io ms

/-- The function `restorefans`, which never returns. -/
def restorefans {σ α : Type} (io : Sysfs σ) (cfg : Config) (status : Int) : Proc σ α := do
  restorefans.loop io cfg.afc
  unlink io PIDFILE
  exit status

/-- The variable `mint` of `UpdateFanSpeeds`. -/
def mint (m : Mapping) : Int := wrap32 (m.mintemp * 1000)

/-- The variable `maxt` of `UpdateFanSpeeds`. -/
def maxt (m : Mapping) : Int := wrap32 (m.maxtemp * 1000)

/-- The expression
`(tval - mint) * (maxpwm - minso) / (maxt - mint) + minso` in `int` arithmetic. -/
def interpolate (m : Mapping) (tval : Int) : Int :=
  wrap32 (wrap32 (Int.tdiv (wrap32 (wrap32 (tval - mint m) * wrap32 (m.maxpwm - m.minstop)))
    (wrap32 (maxt m - mint m))) + m.minstop)

/-- The body of the loop of `UpdateFanSpeeds` for one configured channel. -/
def UpdateFanSpeeds.body {σ : Type} (io : Sysfs σ) (cfg : Config) (m : Mapping) :
    Proc σ Unit := do
  let tval ← rfile io m.temp
  if tval = -1 then
    restorefans io cfg 1
  let pwmpval ← rfile io m.pwm
  if pwmpval = -1 then
    restorefans io cfg 1
  -- If fanspeed-sensor output shall be used, do it
  let min_fanval ← (match m.fan with
    | some fan => do
      let v ← rfile io fan
      if v = -1 then
        restorefans io cfg 1
      pure v
    | none => pure 1) -- set it to a non zero value, so the rest of the script still works
  let pwmval ← (
    if tval ≤ mint m then
      pure m.minpwm -- below min temp, use defined min pwm
    else if tval ≥ maxt m then
      pure m.maxpwm -- over max temp, use defined max pwm
    else do
      -- calculate the new value from temperature and settings
      if pwmpval = 0 ∨ min_fanval = 0 then
        -- if fan was stopped start it using a safe value
        let _ ← wfile io m.pwm m.minstart
        usleep (1 * SECS_TO_US)
      pure (interpolate m tval))
  -- write new value to pwm output
  if (← wfile io m.pwm pwmval) = -1 then
    restorefans io cfg 1

/-- The loop of `UpdateFanSpeeds` over the configured channels. -/
def UpdateFanSpeeds.loop {σ : Type} (io : Sysfs σ) (cfg : Config) : List Mapping → Proc σ Unit
  | [] => pure ()
  | m :: ms => do
    UpdateFanSpeeds.body io cfg m
    UpdateFanSpeeds.loop io cfg ms

/-- The function `UpdateFanSpeeds`. -/
def UpdateFanSpeeds {σ : Type} (io : Sysfs σ) (cfg : Config) : Proc σ Unit :=
  UpdateFanSpeeds.loop io cfg cfg.afc

/-- The loop of `main` that enables PWM on the configured channels. -/
def main.enable {σ : Type} (io : Sysfs σ) (cfg : Config) : List Mapping → Proc σ Unit
  | [] => pure ()
  | m :: ms => do
    let r ← pwmenable io m.pwm
    if r = -1 then
      restorefans io cfg 1
    main.enable io cfg ms

/-! ## `LoadConfig` -/

/-- The constant `MAXMAPPINGS`. -/
def MAXMAPPINGS : Nat := 32

/-- The loop of `get_matching_part`, `ptr` walking over `full`; `fuel` bounds
the number of iterations (each one moves `ptr` forward). -/
def get_matching_part.loop (search : Str) : Nat → Str → Option Str
  | 0, _ => none
  | fuel + 1, ptr =>
    if ptr = [] then none
    else if startswith ptr search then
      -- vptr = &ptr[strlen(search)]; n counts the bytes in front of the next ' '
      some ((ptr.drop search.length).takeWhile (fun c => c ≠ ' '))
    else
      -- while(*ptr && *ptr != ' ') ptr++; if(*ptr) ptr++;
      get_matching_part.loop search fuel ((ptr.dropWhile (fun c => c ≠ ' ')).drop 1)

/-- The function `get_matching_part`; `none` is NULL. -/
def get_matching_part (full : Option Str) (key : Str) : Option Str :=
  match full with
  | none => none
  | some full =>
    get_matching_part.loop (snprintf64 (key ++ "=".toList)) full.length full

/-- The macro `atoi_and_free(s)`, that is `s ? atoi(s) : 0`. -/
def atoi_and_free (s : Option Str) : Int :=
  match s with
  | some s => atoi s
  | none => 0

/-- One `fgets(line, size, f)` on the unread rest of the file, `room` being
`size - 1`: the bytes stored (a newline included) and the rest of the file. -/
def fgets.go : Nat → Str → Str × Str
  | 0, rest => ([], rest)
  | _ + 1, [] => ([], [])
  | room + 1, c :: cs =>
    if c = '\n' then ([c], cs) else ((c :: (fgets.go room cs).1), (fgets.go room cs).2)

/-- The call `fgets(line, size, f)`: `none` at end of file. -/
def fgets (size : Nat) (f : Str) : Option (Str × Str) :=
  if f = [] then none else some (fgets.go (size - 1) f)

/-- The lines that the loop `while(1) { if(!fgets(line, sizeof(line), f)) break; ... }`
reads; `fuel` bounds the number of iterations. -/
def readLines : Nat → Str → List Str
  | 0, _ => []
  | fuel + 1, f =>
    match fgets 512 f with
    | none => []
    | some (line, rest) => line :: readLines fuel rest

/-- The variables that the reading loop of `LoadConfig` sets. -/
structure Raw where
  interval : Int
  devpath : Option Str
  devname : Option Str
  fctemps : Option Str
  mintemp : Option Str
  maxtemp : Option Str
  minstart : Option Str
  minstop : Option Str
  fcfans : Option Str
  minpwm : Option Str
  maxpwm : Option Str
  deriving DecidableEq, Repr

/-- The values with which `LoadConfig` starts. -/
def Raw.init : Raw :=
  ⟨-1, none, none, none, none, none, none, none, none, none, none⟩

/-- The macro `copy_from_config(line, prefix, where)`. -/
def copy_from_config (line pre : Str) (old : Option Str) : Option Str :=
  if startswith line pre then some (line.drop pre.length) else old

/-- The statement `if(line[strlen(line) - 1] == '\n') line[strlen(line) - 1] = '\0';`. -/
def stripNewline (line : Str) : Str :=
  if line.getLast? = some '\n' then line.dropLast else line

/-- One iteration of the reading loop of `LoadConfig`, after `fgets`. -/
def LoadConfig.line (r : Raw) (line0 : Str) : Raw :=
  if line0.head? = some '#' then r
  else
    let line := stripNewline line0
    { interval :=
        if startswith line "INTERVAL=".toList then atoi (line.drop "INTERVAL=".toList.length)
        else r.interval
      devpath := copy_from_config line "DEVPATH=".toList r.devpath
      devname := copy_from_config line "DEVNAME=".toList r.devname
      fctemps := copy_from_config line "FCTEMPS=".toList r.fctemps
      mintemp := copy_from_config line "MINTEMP=".toList r.mintemp
      maxtemp := copy_from_config line "MAXTEMP=".toList r.maxtemp
      minstart := copy_from_config line "MINSTART=".toList r.minstart
      minstop := copy_from_config line "MINSTOP=".toList r.minstop
      fcfans := copy_from_config line "FCFANS=".toList r.fcfans
      minpwm := copy_from_config line "MINPWM=".toList r.minpwm
      maxpwm := copy_from_config line "MAXPWM=".toList r.maxpwm }

/-- The reading loop of `LoadConfig` on the content of the file. -/
def LoadConfig.read (text : Str) : Raw :=
  (readLines text.length text).foldl LoadConfig.line Raw.init

/-- The pieces of a string between its spaces, empty pieces included. -/
def splitSpaces : Str → List Str
  | [] => [[]]
  | c :: cs =>
    if c = ' ' then [] :: splitSpaces cs
    else
      match splitSpaces cs with
      | [] => [[c]]
      | t :: ts => (c :: t) :: ts

/-- The tokens that `strtok(s, " ")` and the calls `strtok(NULL, " ")` after it
deliver: the non-empty pieces between spaces. -/
def strtokAll (s : Str) : List Str := (splitSpaces s).filter (fun t => t ≠ [])

/-- What `LoadConfig` leaves behind: the value it returns and the global
`config`; or undefined behaviour (a NULL pointer passed to `strchr`, a write
behind the end of `config.afc`). -/
inductive LoadResult
  | returned (code : Int) (config : Config)
  | undefined
  deriving DecidableEq, Repr

/-- The entry `config.afc[fcvcount]` once `pwm`, `temp` and, with an `FCFANS`
line, `fan` are set for the token `ptr`. -/
def LoadConfig.keyed (r : Raw) (ptr : Str) : Mapping :=
  let key := ptr.takeWhile (fun c => c ≠ '=')
  { pwm := key
    temp := (ptr.dropWhile (fun c => c ≠ '=')).drop 1
    fan := match r.fcfans with
      | some fcfans => get_matching_part (some fcfans) key
      | none => none
    mintemp := 0, maxtemp := 0, minstart := 0, minstop := 0
    minpwm := 0, maxpwm := 255 }

/-- The entry `config.afc[fcvcount]` once all its fields are set for the token `ptr`. -/
def LoadConfig.filled (r : Raw) (ptr : Str) : Mapping :=
  let e := LoadConfig.keyed r ptr
  { e with
    mintemp := atoi_and_free (get_matching_part r.mintemp e.pwm)
    maxtemp := atoi_and_free (get_matching_part r.maxtemp e.pwm)
    minstart := atoi_and_free (get_matching_part r.minstart e.pwm)
    minstop := atoi_and_free (get_matching_part r.minstop e.pwm)
    minpwm := match get_matching_part r.minpwm e.pwm with
      | some tmp => atoi_and_free (some tmp)
      | none => e.minpwm
    maxpwm := match get_matching_part r.maxpwm e.pwm with
      | some tmp => atoi_and_free (some tmp)
      | none => e.maxpwm }

/-- The `do ... while(( ptr = strtok(NULL, " ") ))` loop of `LoadConfig`:
`done` holds the entries `config.afc[0 .. fcvcount-1]`, the list the token
`ptr` and the tokens after it. -/
def LoadConfig.loop (r : Raw) : List Mapping → List Str → LoadResult
  | done, [] => .returned 0 ⟨r.interval, r.devpath, r.devname, done⟩
  | done, ptr :: rest =>
    if ptr.all (fun c => c ≠ '=') then
      -- !strchr(ptr, '=')
      .returned (-1) ⟨r.interval, r.devpath, r.devname, done⟩
    else if MAXMAPPINGS ≤ done.length then
      .undefined
    else if (LoadConfig.keyed r ptr).fan.any (fun fan => fan.any (fun c => c = '+')) then
      .returned (-1) ⟨r.interval, r.devpath, r.devname, done ++ [LoadConfig.keyed r ptr]⟩
    else
      let e := LoadConfig.filled r ptr
      -- verify the validity of the settings
      if e.mintemp ≥ e.maxtemp then
        .returned (-1) ⟨r.interval, r.devpath, r.devname, done ++ [e]⟩
      else if e.maxpwm > 255 then
        .returned (-1) ⟨r.interval, r.devpath, r.devname, done ++ [e]⟩
      else if e.minstop ≥ e.maxpwm then
        .returned (-1) ⟨r.interval, r.devpath, r.devname, done ++ [e]⟩
      else if e.minstop < e.minpwm then
        .returned (-1) ⟨r.interval, r.devpath, r.devname, done ++ [e]⟩
      else if e.minpwm < 0 then
        .returned (-1) ⟨r.interval, r.devpath, r.devname, done ++ [e]⟩
      else
        LoadConfig.loop r (done ++ [e]) rest

/-- The function `LoadConfig` on a file with content `file`; `none` when it cannot be opened. -/
def LoadConfig (file : Option Str) : LoadResult :=
  match file with
  | none => .returned (-1) ⟨-1, none, none, []⟩
  | some text =>
    let r := LoadConfig.read text
    match r.fctemps, r.mintemp, r.maxtemp, r.minstart, r.minstop with
    | some fctemps, some _, some _, some _, some _ =>
      if r.interval ≤ 0 then
        .returned (-1) ⟨r.interval, r.devpath, r.devname, []⟩
      else
        match strtokAll fctemps with
        | [] => .undefined -- strchr(NULL, '=')
        | ptr :: rest => LoadConfig.loop r [] (ptr :: rest)
    | _, _, _, _, _ => .returned (-1) ⟨r.interval, r.devpath, r.devname, []⟩

/-! ## Signals and the path to the sensors -/

/-- The signal number `SIGHUP` of `<signal.h>`. -/
def SIGHUP : Int := 1

/-- The signal number `SIGINT` of `<signal.h>`. -/
def SIGINT : Int := 2

/-- The signal number `SIGQUIT` of `<signal.h>`. -/
def SIGQUIT : Int := 3

/-- The signal number `SIGTERM` of `<signal.h>`. -/
def SIGTERM : Int := 15

/-- The function `sighandler`. -/
def sighandler {σ : Type} (io : Sysfs σ) (cfg : Config) (signal : Int) : Proc σ Unit :=
  restorefans io cfg (if signal = SIGQUIT ∨ signal = SIGTERM then 0 else 1)

/-- The signals for which `main` installs `sighandler`, in the order of the calls. -/
def main.signals : List Int := [SIGQUIT, SIGTERM, SIGHUP, SIGINT]

/-- The function `check_i2c_regex`: `ptr` runs over the leading digits. -/
def check_i2c_regex (s : Str) : Bool :=
  let ptr := s.dropWhile isdigit
  -- ptr > s && *ptr == '-'
  decide (ptr.length < s.length) && ptr.head? = some '-'

/-- The variable `dir` of `main` after "Detect path to sensors", for the `pwm`
string of `config.afc[0]`; `none` is NULL. -/
def main.dir (pwm : Str) : Option Str :=
  if pwm.head? = some '/' then some "/".toList
  else if startswith pwm "hwmon".toList then some "/sys/class/hwmon".toList
  else if check_i2c_regex pwm then some "/sys/bus/i2c/devices".toList
  else none

/-- The part of `main` that detects the path to the sensors: it returns 1
(`.error 1`) when `dir` stays NULL and goes on with `dir` otherwise. -/
def main.detect (pwm : Str) : Except Int Str :=
  match main.dir pwm with
  | none => .error 1
  | some dir => .ok dir

/-! ## `FixupFiles` and `CheckFiles` -/

/-- The call `strstr(haystack, needle)`: the offset of the first occurrence,
`none` for NULL. -/
def strstr : Str → Str → Option Nat
  | [], needle => if needle = [] then some 0 else none
  | c :: cs, needle =>
    if startswith (c :: cs) needle then some 0 else (strstr cs needle).map (fun i => i + 1)

/-- What `FixupDeviceFiles` does to one string of an entry: with
`tmp = strstr(path, search) + strlen(device)` and `tmp2 = tmp + strlen("/device")`
it moves the rest of the string from `tmp2` to `tmp`. The result is `none`
(undefined behaviour) when `tmp2` lies behind the end of the string. -/
def FixupDeviceFiles.path (device path : Str) : Option Str :=
  let search := snprintf64 (device ++ "/device".toList)
  match strstr path search with
  | none => some path
  | some i =>
    if i + device.length + "/device".toList.length ≤ path.length then
      some (path.take (i + device.length) ++
        path.drop (i + device.length + "/device".toList.length))
    else none

/-- One iteration of the loop of `FixupDeviceFiles`: pwm output, temp input and
fan input; `strstr` on a NULL `fan` is undefined behaviour (`none`). -/
def FixupDeviceFiles.entry (device : Str) (m : Mapping) : Option Mapping :=
  match FixupDeviceFiles.path device m.pwm with
  | none => none
  | some pwm =>
    match FixupDeviceFiles.path device m.temp with
    | none => none
    | some temp =>
      match m.fan with
      | none => none
      | some fan =>
        match FixupDeviceFiles.path device fan with
        | none => none
        | some fan => some { m with pwm := pwm, temp := temp, fan := some fan }

/-- The loop of `FixupDeviceFiles` over the configured channels. -/
def FixupDeviceFiles.loop (device : Str) : List Mapping → Option (List Mapping)
  | [] => some []
  | m :: ms =>
    match FixupDeviceFiles.entry device m with
    | none => none
    | some m1 =>
      match FixupDeviceFiles.loop device ms with
      | none => none
      | some ms1 => some (m1 :: ms1)

/-- The function `FixupDeviceFiles` on the global `config`; `none` is undefined
behaviour. -/
def FixupDeviceFiles (device : Str) (cfg : Config) : Option Config :=
  match FixupDeviceFiles.loop device cfg.afc with
  | none => none
  | some afc => some { cfg with afc := afc }

/-- The `do ... while` loop of `FixupFiles` over the tokens of `config.devpath`
in store `s` (which `access` does not change): `ptr` is cut at its `=`, and
`FixupDeviceFiles(ptr)` runs when the file `ptr/name` exists. A token without
`=` makes `save` NULL (`none`, undefined behaviour). -/
def FixupFiles.loop {σ : Type} (io : Sysfs σ) (s : σ) : List Str → Config → Option Config
  | [], cfg => some cfg
  | ptr :: rest, cfg =>
    if ptr.all (fun c => c ≠ '=') then none
    else
      let device := ptr.takeWhile (fun c => c ≠ '=')
      let tmp := snprintf64 (device ++ "/name".toList)
      if io.access s tmp Mode.F_OK then
        match FixupDeviceFiles device cfg with
        | none => none
        | some cfg1 => FixupFiles.loop io s rest cfg1
      else FixupFiles.loop io s rest cfg

/-- The function `FixupFiles` on the global `config` in store `s`; `none` is
undefined behaviour: `config.devpath` is NULL (`strtok` then goes on in the
freed `fctemps`), or it has no token (`strchr` on NULL). -/
def FixupFiles {σ : Type} (io : Sysfs σ) (s : σ) (cfg : Config) : Option Config :=
  match cfg.devpath with
  | none => none
  | some devpath =>
    match strtokAll devpath with
    | [] => none
    | ptr :: rest => FixupFiles.loop io s (ptr :: rest) cfg

/-- One iteration of the loop of `CheckFiles`, `outdated` being the flag so far. -/
def CheckFiles.entry {σ : Type} (io : Sysfs σ) (m : Mapping) (outdated : Int) : Proc σ Int := do
  -- go through pwm output & temp input & fan input
  let o1 := if (← access io m.pwm Mode.W_OK) then outdated else 1
  let o2 := if (← access io m.temp Mode.R_OK) then o1 else 1
  let o3 := if (← accessPtr io m.fan Mode.R_OK) then o2 else 1
  return o3

/-- The loop of `CheckFiles` over the configured channels. -/
def CheckFiles.loop {σ : Type} (io : Sysfs σ) : List Mapping → Int → Proc σ Int
  | [], outdated => pure outdated
  | m :: ms, outdated => do
    let o ← CheckFiles.entry io m outdated
    CheckFiles.loop io ms o

/-- The function `CheckFiles`. -/
def CheckFiles {σ : Type} (io : Sysfs σ) (cfg : Config) : Proc σ Int := do
  let outdated ← CheckFiles.loop io cfg.afc 0
  return (if outdated ≠ 0 then -1 else 0)
/-! ## Vocabulary of the statements -/

/-- The duty cycle `pwmval` chosen by `UpdateFanSpeeds` for temperature `tval`. -/
def pwmval (m : Mapping) (tval : Int) : Int :=
  if tval ≤ mint m then m.minpwm
  else if tval ≥ maxt m then m.maxpwm
  else interpolate m tval

/-- The interpolation formula over the integers, division truncating. -/
def interpolateExact (m : Mapping) (t : Int) : Int :=
  Int.tdiv ((t - m.mintemp * 1000) * (m.maxpwm - m.minstop))
    (m.maxtemp * 1000 - m.mintemp * 1000) + m.minstop

/-- No operation of the interpolation leaves the range of `int`. -/
def NoOverflow (m : Mapping) (t : Int) : Prop :=
  inInt32 (m.mintemp * 1000) ∧ inInt32 (m.maxtemp * 1000) ∧
  inInt32 (t - m.mintemp * 1000) ∧ inInt32 (m.maxpwm - m.minstop) ∧
  inInt32 ((t - m.mintemp * 1000) * (m.maxpwm - m.minstop)) ∧
  inInt32 (m.maxtemp * 1000 - m.mintemp * 1000) ∧
  inInt32 (Int.tdiv ((t - m.mintemp * 1000) * (m.maxpwm - m.minstop))
    (m.maxtemp * 1000 - m.mintemp * 1000)) ∧
  inInt32 (interpolateExact m t)

instance (m : Mapping) (t : Int) : Decidable (NoOverflow m t) := by
  unfold NoOverflow; infer_instance

/-- The reads with which the loop body of `UpdateFanSpeeds` starts. -/
def readCalls (m : Mapping) : List Event :=
  match m.fan with
  | some fan => [Event.rfile m.temp, Event.rfile m.pwm, Event.rfile fan]
  | none => [Event.rfile m.temp, Event.rfile m.pwm]

/-- The fan of the channel looks stopped: the pwm value read is 0, or a fan
input is configured and the value read from it is 0. -/
def stopped {σ : Type} (io : Sysfs σ) (m : Mapping) (s : σ) : Prop :=
  rfileValue (io.read s m.pwm) = 0 ∨
    ∃ fan, m.fan = some fan ∧ rfileValue (io.read s fan) = 0

/-- All reads of the loop body succeed in store `s`. -/
def readsOk {σ : Type} (io : Sysfs σ) (m : Mapping) (s : σ) : Prop :=
  rfileValue (io.read s m.temp) ≠ -1 ∧ rfileValue (io.read s m.pwm) ≠ -1 ∧
    ∀ fan, m.fan = some fan → rfileValue (io.read s fan) ≠ -1

/-- What follows the last `wfile` of the loop body, issued in store `s`:
nothing when the file could be opened, else the calls of `restorefans(1)`. -/
def afterWrite {σ : Type} (io : Sysfs σ) (cfg : Config) (path : Str) (s : σ) : List Event :=
  if io.openW s path then [] else ((restorefans io cfg 1 : Proc σ Unit) s).ev

/-- The store in which `pwmdisable` reads back the fallback `enable=1`, `pwm=255`. -/
def fallbackStore {σ : Type} (io : Sysfs σ) (name : Str) (s : σ) : σ :=
  (wfile io name 255 (wfile io (enableName name) 1 (wfile io (enableName name) 0 s).st).st).st

/-- The invariants that `LoadConfig` verifies for an entry. -/
def Mapping.valid (m : Mapping) : Prop :=
  m.mintemp < m.maxtemp ∧ 0 ≤ m.minpwm ∧ m.minpwm ≤ m.minstop ∧ m.minstop < m.maxpwm ∧
    m.maxpwm ≤ 255

instance (m : Mapping) : Decidable m.valid := by unfold Mapping.valid; infer_instance


/-- The line read by `fgets` is not a comment and sets the variable with prefix `pre`. -/
def isSetting (pre line0 : Str) : Bool :=
  line0.head? ≠ some '#' && startswith (stripNewline line0) pre

/-- The value of a setting in the configuration text: what follows `pre` on
the last line that is not a comment and starts with `pre`; `none` when there
is no such line. -/
def setting (pre text : Str) : Option Str :=
  (((readLines text.length text).filter (isSetting pre)).getLast?).map
    (fun line0 => (stripNewline line0).drop pre.length)

/-- The list has no `key=value` token for `key`: it is absent, or none of its
space-separated tokens starts with `key=`. -/
def noEntry (list : Option Str) (key : Str) : Prop :=
  ∀ full, list = some full → ∀ tok ∈ splitSpaces full, ¬ startswith tok (key ++ "=".toList)

/-! ## Stores and configurations for the examples -/

/-- A store whose files never change: `files` lists the existing files with
their contents, and a file can be opened for writing unless it is in `readonly`. -/
def fixedStore (files : List (Str × Str)) (readonly : List Str) : Sysfs Unit where
  access := fun _ path _ => (files.lookup path).isSome
  openW := fun _ path => !(readonly.contains path)
  write := fun _ _ _ => ()
  read := fun _ path => files.lookup path
  unlink := fun _ _ => ()

/-- The channel `minTemp=40, maxTemp=70, minStop=100, maxPwm=200` without fan input. -/
def exMapping : Mapping :=
  { pwm := "hwmon0/pwm1".toList, temp := "hwmon0/temp1_input".toList, fan := none
    mintemp := 40, maxtemp := 70, minstart := 150, minstop := 100, minpwm := 0, maxpwm := 200 }

/-- The channel `exMapping` with a fan input. -/
def exMappingFan : Mapping :=
  { exMapping with fan := some "hwmon0/fan1_input".toList }

/-- A configuration with the channel `exMapping`. -/
def exConfig : Config := ⟨10, none, none, [exMapping]⟩

/-- Sensor files: 55 °C, pwm at 120, fan turning, no enable file. -/
def exWarm : List (Str × Str) :=
  [("hwmon0/temp1_input".toList, "55000\n".toList), ("hwmon0/pwm1".toList, "120\n".toList),
   ("hwmon0/fan1_input".toList, "900\n".toList)]

/-- Sensor files: 30 °C. -/
def exCold : List (Str × Str) :=
  [("hwmon0/temp1_input".toList, "30000\n".toList), ("hwmon0/pwm1".toList, "0\n".toList),
   ("hwmon0/fan1_input".toList, "0\n".toList)]

/-- Sensor files: 85 °C. -/
def exHot : List (Str × Str) :=
  [("hwmon0/temp1_input".toList, "85000\n".toList), ("hwmon0/pwm1".toList, "0\n".toList),
   ("hwmon0/fan1_input".toList, "0\n".toList)]

/-- Sensor files: the temperature attribute holds `-1`. -/
def exMinusOne : List (Str × Str) :=
  [("hwmon0/temp1_input".toList, "-1\n".toList), ("hwmon0/pwm1".toList, "120\n".toList)]

/-- The configuration text of the parsing example. -/
def exText : Str :=
  ("FCTEMPS=pwm1=temp1\nMINTEMP=pwm1=20\nMAXTEMP=pwm1=60\nMINSTART=pwm1=150\n" ++
    "MINSTOP=pwm1=100\nINTERVAL=5\n").toList

/-- The configuration that `exText` describes. -/
def exLoaded : Config :=
  ⟨5, none, none, [⟨"pwm1".toList, "temp1".toList, none, 20, 60, 150, 100, 0, 255⟩]⟩

/-! ## Vocabulary for `CheckFiles`, the lookups and the path fixup -/

/-- The calls that one iteration of the loop of `CheckFiles` makes. -/
def CheckFiles.calls (m : Mapping) : List Event :=
  [Event.access m.pwm Mode.W_OK, Event.access m.temp Mode.R_OK,
    match m.fan with
    | some fan => Event.access fan Mode.R_OK
    | none => Event.accessNull Mode.R_OK]

/-- The files of the entry pass the three tests of `CheckFiles` in store `s`. -/
def CheckFiles.passes {σ : Type} (io : Sysfs σ) (s : σ) (m : Mapping) : Bool :=
  io.access s m.pwm Mode.W_OK && io.access s m.temp Mode.R_OK &&
    match m.fan with
    | some fan => io.access s fan Mode.R_OK
    | none => false

/-- The string matches the regular expression `^[0-9]+-`: one or more decimal
digits, then `-`. -/
def matchesI2c (p : Str) : Prop :=
  ∃ ds rest, ds ≠ [] ∧ (∀ c ∈ ds, isdigit c = true) ∧ p = ds ++ '-' :: rest

/-- A configuration text in which `MAXTEMP`, `MINSTART` and `MINSTOP` are
present but have no entry for the channel `pwm1`. -/
def exMissingEntries : Str :=
  ("INTERVAL=5\nFCTEMPS=pwm1=temp1\nMINTEMP=pwm1=-10\nMAXTEMP=pwm2=60\n" ++
    "MINSTART=pwm2=150\nMINSTOP=pwm2=100\n").toList

/-- The return value of `LoadConfig`, `none` when the behaviour is undefined. -/
def LoadResult.code : LoadResult → Option Int
  | .returned code _ => some code
  | .undefined => none

/-- The lookup as the specification words it: the value (the text after the
first `=`) of the first space-separated token of the list whose key part (the
text before its first `=`) is exactly `key`; nothing when the list is absent
or has no such token. -/
def get_matching_part_spec (list : Option Str) (key : Str) : Option Str :=
  match list with
  | none => none
  | some full =>
    ((splitSpaces full).find? (fun tok =>
        tok.any (fun c => c = '=') && (tok.takeWhile (fun c => c ≠ '=') == key))).map
      (fun tok => (tok.dropWhile (fun c => c ≠ '=')).drop 1)

/-- A key of 63 bytes. -/
def exLongKey : Str := List.replicate 63 'a'

/-- A configuration text whose `FCFANS` entry for `pwm1` is a group of two fans. -/
def exFanGroup : Str :=
  ("INTERVAL=5\nFCTEMPS=pwm1=temp1\nFCFANS=pwm1=fan1+fan2\n" ++
    "MINTEMP=pwm1=20\nMAXTEMP=pwm1=60\nMINSTART=pwm1=150\nMINSTOP=pwm1=100\n").toList

/-- The string `path` with the bytes `/device` removed that follow the first
occurrence of `device` in front of `/device`; `path` itself when there is no
occurrence of `device/device`. -/
def dropDeviceSegment (device path : Str) : Str :=
  match strstr path (device ++ "/device".toList) with
  | none => path
  | some i => path.take (i + device.length) ++ path.drop (i + device.length + 7)

/-- The entry with `dropDeviceSegment` applied to its three paths. -/
def Mapping.dropDeviceSegment (device : Str) (m : Mapping) : Mapping :=
  { m with
    pwm := Fancontrol.dropDeviceSegment device m.pwm
    temp := Fancontrol.dropDeviceSegment device m.temp
    fan := m.fan.map (Fancontrol.dropDeviceSegment device) }

/-- A channel in the old layout, with fan input. -/
def exOldMapping : Mapping :=
  { pwm := "hwmon0/device/pwm1".toList, temp := "hwmon0/device/temp1_input".toList
    fan := some "hwmon0/device/fan1_input".toList
    mintemp := 40, maxtemp := 70, minstart := 150, minstop := 100, minpwm := 0, maxpwm := 200 }

/-- A configuration with the channel `exOldMapping` and the device hint
`hwmon0=devices/virtual`. -/
def exOldConfig : Config := ⟨10, some "hwmon0=devices/virtual".toList, none, [exOldMapping]⟩

/-- A channel whose paths start with the second half of the device hint. -/
def exPathMapping : Mapping :=
  { pwm := "devices/virtual/device/pwm1".toList
    temp := "devices/virtual/device/temp1_input".toList
    fan := some "devices/virtual/device/fan1_input".toList
    mintemp := 40, maxtemp := 70, minstart := 150, minstop := 100, minpwm := 0, maxpwm := 200 }

/-- A configuration with the channel `exPathMapping` and the device hint
`hwmon0=devices/virtual`. -/
def exPathConfig : Config := ⟨10, some "hwmon0=devices/virtual".toList, none, [exPathMapping]⟩

/-- A channel whose pwm path has `devices` behind the device. -/
def exDevicesMapping : Mapping :=
  { pwm := "hwmon0/devices/pwm1".toList, temp := "hwmon0/device".toList
    fan := some "hwmon0/fan1_input".toList
    mintemp := 40, maxtemp := 70, minstart := 150, minstop := 100, minpwm := 0, maxpwm := 200 }

/-- The entries after the device hints `toks` of `DEVPATH` have been gone
through in order in store `s`: for every hint whose text `device` in front of
the `=` names an existing file `device/name`, the bytes `/device` behind the
first `device` in front of `/device` are removed from each path of each entry. -/
def fixupHints {σ : Type} (io : Sysfs σ) (s : σ) : List Str → List Mapping → List Mapping
  | [], afc => afc
  | tok :: rest, afc =>
    if io.access s (tok.takeWhile (fun c => c ≠ '=') ++ "/name".toList) Mode.F_OK then
      fixupHints io s rest
        (afc.map (Mapping.dropDeviceSegment (tok.takeWhile (fun c => c ≠ '='))))
    else fixupHints io s rest afc

/-- A configuration with two device hints and a channel of each device in the
old layout. -/
def exTwoHints : Config :=
  ⟨10, some "hwmon0=devices/a hwmon1=devices/b".toList, none,
    [{ exOldMapping with pwm := "hwmon0/device/pwm1".toList },
     { exOldMapping with
        pwm := "hwmon1/device/pwm1".toList, temp := "hwmon1/device/temp1_input".toList
        fan := some "hwmon1/device/fan1_input".toList }]⟩

/-! ## Examples at the limits of `int` and of the search buffer -/

/-- A configuration text with a wide temperature range. -/
def exWideText : Str :=
  ("INTERVAL=5\nFCTEMPS=pwm1=temp1\nMINTEMP=pwm1=0\nMAXTEMP=pwm1=2000000\n" ++
    "MINSTART=pwm1=150\nMINSTOP=pwm1=100\n").toList

/-- The channel that `exWideText` describes. -/
def exWide : Mapping :=
  ⟨"pwm1".toList, "temp1".toList, none, 0, 2000000, 150, 100, 0, 255⟩

/-- Sensor files: a reading of 1500000000, pwm at 120. -/
def exScorching : List (Str × Str) :=
  [("temp1".toList, "1500000000\n".toList), ("pwm1".toList, "120\n".toList)]

/-- A configuration text whose `MINTEMP * 1000` does not fit an `int`. -/
def exHugeText : Str :=
  ("INTERVAL=5\nFCTEMPS=pwm1=temp1\nMINTEMP=pwm1=3000000\nMAXTEMP=pwm1=3000001\n" ++
    "MINSTART=pwm1=150\nMINSTOP=pwm1=100\nMINPWM=pwm1=30\n").toList

/-- The channel that `exHugeText` describes. -/
def exHuge : Mapping :=
  ⟨"pwm1".toList, "temp1".toList, none, 3000000, 3000001, 150, 100, 30, 255⟩

/-- Sensor files: 50 °C, pwm at 120. -/
def exMild : List (Str × Str) :=
  [("temp1".toList, "50000\n".toList), ("pwm1".toList, "120\n".toList)]

/-- A key of 64 bytes that ends in `1`. -/
def exKey1 : Str := List.replicate 63 'a' ++ ['1']

/-- A key of 64 bytes that shares its first 63 bytes with `exKey1`. -/
def exKey2 : Str := List.replicate 63 'a' ++ ['2']

/-- A configuration text with the channels `exKey1` and `exKey2`: both have an
entry in each of `MINTEMP`, `MAXTEMP`, `MINSTART` and `MINSTOP`, and only
`exKey2` has one in `FCFANS` and in `MAXPWM`. -/
def exLongKeys : Str :=
  "INTERVAL=5\nFCTEMPS=".toList ++ exKey1 ++ "=temp1 ".toList ++ exKey2 ++ "=temp2\n".toList ++
  "MINTEMP=".toList ++ exKey1 ++ "=20 ".toList ++ exKey2 ++ "=20\n".toList ++
  "MAXTEMP=".toList ++ exKey2 ++ "=60 ".toList ++ exKey1 ++ "=60\n".toList ++
  "MINSTART=".toList ++ exKey1 ++ "=150 ".toList ++ exKey2 ++ "=150\n".toList ++
  "MINSTOP=".toList ++ exKey1 ++ "=100 ".toList ++ exKey2 ++ "=100\n".toList ++
  "FCFANS=".toList ++ exKey2 ++ "=fan2\n".toList ++
  "MAXPWM=".toList ++ exKey2 ++ "=200\n".toList

/-- The prefixes of the settings, other than `FCFANS=`, from which `LoadConfig`
determines the value it returns (`DEVPATH=` and `DEVNAME=` are only stored). -/
def LoadConfig.otherSettings : List Str :=
  ["INTERVAL=".toList, "FCTEMPS=".toList, "MINTEMP=".toList, "MAXTEMP=".toList,
    "MINSTART=".toList, "MINSTOP=".toList, "MINPWM=".toList, "MAXPWM=".toList]

/-- The parsing example with a fan input for its channel. -/
def exFanText : Str :=
  ("FCTEMPS=pwm1=temp1\nFCFANS=pwm1=fan1\nMINTEMP=pwm1=20\nMAXTEMP=pwm1=60\n" ++
    "MINSTART=pwm1=150\nMINSTOP=pwm1=100\nINTERVAL=5\n").toList

/-- A configuration text with the channels `exKey1` and `exKey2` in which the
`FCFANS` entry of `exKey1` is a group of two fans and stands behind the entry
of `exKey2`. -/
def exLongFanGroup : Str :=
  "INTERVAL=5\nFCTEMPS=".toList ++ exKey1 ++ "=temp1 ".toList ++ exKey2 ++ "=temp2\n".toList ++
  "MINTEMP=".toList ++ exKey1 ++ "=20 ".toList ++ exKey2 ++ "=20\n".toList ++
  "MAXTEMP=".toList ++ exKey2 ++ "=60 ".toList ++ exKey1 ++ "=60\n".toList ++
  "MINSTART=".toList ++ exKey1 ++ "=150 ".toList ++ exKey2 ++ "=150\n".toList ++
  "MINSTOP=".toList ++ exKey1 ++ "=100 ".toList ++ exKey2 ++ "=100\n".toList ++
  "FCFANS=".toList ++ exKey2 ++ "=fan2 ".toList ++ exKey1 ++ "=fan1+fan3\n".toList

/-! ## Running processes -/

theorem run_pure {σ α : Type} (a : α) (s : σ) : (pure a : Proc σ α) s = ⟨.ok a, s, []⟩ := rfl

theorem run_bind {σ α β : Type} (m : Proc σ α) (f : α → Proc σ β) (s : σ) :
    (m >>= f) s = Proc.bind m f s := rfl

theorem run_ite {σ α : Type} (c : Prop) [Decidable c] (a b : Proc σ α) (s : σ) :
    (if c then a else b) s = if c then a s else b s := by
  split <;> rfl

theorem bind_ok {σ α β : Type} (m : Proc σ α) (f : α → Proc σ β) (s : σ) (a : α)
    (h : (m s).res = .ok a) :
    (m >>= f) s = ⟨(f a (m s).st).res, (f a (m s).st).st, (m s).ev ++ (f a (m s).st).ev⟩ := by
  simp only [run_bind, Proc.bind, h]

theorem bind_error {σ α β : Type} (m : Proc σ α) (f : α → Proc σ β) (s : σ) (c : Int)
    (h : (m s).res = .error c) :
    (m >>= f) s = ⟨.error c, (m s).st, (m s).ev⟩ := by
  simp only [run_bind, Proc.bind, h]

theorem wfile_res {σ : Type} (io : Sysfs σ) (path : Str) (v : Int) (s : σ) :
    (wfile io path v s).res = .ok (if io.openW s path then 0 else -1) := rfl

theorem wfile_ev {σ : Type} (io : Sysfs σ) (path : Str) (v : Int) (s : σ) :
    (wfile io path v s).ev = [Event.wfile path v] := rfl

theorem wfile_st_fail {σ : Type} (io : Sysfs σ) (path : Str) (v : Int) (s : σ)
    (h : io.openW s path = false) : (wfile io path v s).st = s := by
  simp [wfile, h]

theorem rfile_run {σ : Type} (io : Sysfs σ) (path : Str) (s : σ) :
    rfile io path s = ⟨.ok (rfileValue (io.read s path)), s, [Event.rfile path]⟩ := rfl

theorem access_run {σ : Type} (io : Sysfs σ) (path : Str) (mode : Mode) (s : σ) :
    access io path mode s = ⟨.ok (io.access s path mode), s, [Event.access path mode]⟩ := rfl

/-- The first case of `pwmdisable`: no enable file. -/
theorem pwmdisable_noenable {σ : Type} (io : Sysfs σ) (name : Str) (s : σ)
    (h : io.access s (enableName name) Mode.F_OK = false) :
    pwmdisable io name s = ⟨.ok 0, (wfile io name 255 s).st,
      [Event.access (enableName name) Mode.F_OK, Event.wfile name 255]⟩ := by
  simp [pwmdisable, bind_ok _ _ _ _ (wfile_res _ _ _ _), access_run, h, run_bind, Proc.bind,
    run_pure, wfile_ev]

/-- The second case of `pwmdisable`: the enable file took the value 0. -/
theorem pwmdisable_auto {σ : Type} (io : Sysfs σ) (name : Str) (s : σ)
    (h : io.access s (enableName name) Mode.F_OK = true)
    (h0 : rfileValue (io.read (wfile io (enableName name) 0 s).st (enableName name)) = 0) :
    pwmdisable io name s = ⟨.ok 0, (wfile io (enableName name) 0 s).st,
      [Event.access (enableName name) Mode.F_OK, Event.wfile (enableName name) 0,
        Event.rfile (enableName name)]⟩ := by
  simp [pwmdisable, bind_ok _ _ _ _ (wfile_res _ _ _ _), access_run, h, h0, run_bind, Proc.bind,
    run_pure, wfile_ev, rfile_run]

/-- The third case of `pwmdisable`: the fallback. -/
theorem pwmdisable_fallback {σ : Type} (io : Sysfs σ) (name : Str) (s : σ)
    (h : io.access s (enableName name) Mode.F_OK = true)
    (h0 : rfileValue (io.read (wfile io (enableName name) 0 s).st (enableName name)) ≠ 0) :
    pwmdisable io name s =
      ⟨.ok (if rfileValue (io.read (fallbackStore io name s) (enableName name)) = 1 ∧
          190 ≤ rfileValue (io.read (fallbackStore io name s) name) then 0 else -1),
        fallbackStore io name s,
        [Event.access (enableName name) Mode.F_OK, Event.wfile (enableName name) 0,
          Event.rfile (enableName name), Event.wfile (enableName name) 1,
          Event.wfile name 255, Event.rfile (enableName name)] ++
        (if rfileValue (io.read (fallbackStore io name s) (enableName name)) = 1
          then [Event.rfile name] else [])⟩ := by
  by_cases h1 : rfileValue (io.read (fallbackStore io name s) (enableName name)) = 1
  · by_cases h2 : 190 ≤ rfileValue (io.read (fallbackStore io name s) name)
    · unfold fallbackStore at h1 h2
      simp [pwmdisable, bind_ok _ _ _ _ (wfile_res _ _ _ _), access_run, h, h0, run_bind, Proc.bind,
        run_pure, wfile_ev, rfile_run, h1, h2, fallbackStore]
    · unfold fallbackStore at h1 h2
      simp [pwmdisable, bind_ok _ _ _ _ (wfile_res _ _ _ _), access_run, h, h0, run_bind, Proc.bind,
        run_pure, wfile_ev, rfile_run, h1, h2, fallbackStore]
  · unfold fallbackStore at h1
    simp [pwmdisable, bind_ok _ _ _ _ (wfile_res _ _ _ _), access_run, h, h0, run_bind, Proc.bind,
      run_pure, wfile_ev, rfile_run, h1, fallbackStore]

theorem pwmdisable_res {σ : Type} (io : Sysfs σ) (name : Str) (s : σ) :
    ∃ r, (pwmdisable io name s).res = .ok r := by
  by_cases h : io.access s (enableName name) Mode.F_OK = true
  · by_cases h0 : rfileValue (io.read (wfile io (enableName name) 0 s).st (enableName name)) = 0
    · exact ⟨_, by rw [pwmdisable_auto io name s h h0]⟩
    · exact ⟨_, by rw [pwmdisable_fallback io name s h h0]⟩
  · exact ⟨_, by rw [pwmdisable_noenable io name s (by simpa using h)]⟩

theorem restorefans_loop_res {σ : Type} (io : Sysfs σ) (ms : List Mapping) (s : σ) :
    (restorefans.loop io ms s).res = .ok () := by
  induction ms generalizing s with
  | nil => rfl
  | cons m ms ih =>
    obtain ⟨r, hr⟩ := pwmdisable_res io m.pwm s
    simp only [restorefans.loop, run_bind, Proc.bind, hr, ih]

theorem restorefans_run {σ α : Type} (io : Sysfs σ) (cfg : Config) (status : Int) (s : σ) :
    (restorefans io cfg status : Proc σ α) s =
      ⟨.error status, io.unlink (restorefans.loop io cfg.afc s).st PIDFILE,
        (restorefans.loop io cfg.afc s).ev ++ [Event.unlink PIDFILE, Event.exit status]⟩ := by
  simp [restorefans, run_bind, Proc.bind, restorefans_loop_res, unlink, exit]

theorem body_stalled {σ : Type} (io : Sysfs σ) (cfg : Config) (m : Mapping) (s : σ)
    (hr : readsOk io m s)
    (h1 : mint m < rfileValue (io.read s m.temp)) (h2 : rfileValue (io.read s m.temp) < maxt m)
    (hs : stopped io m s) :
    (UpdateFanSpeeds.body io cfg m s).ev =
      readCalls m ++ [Event.wfile m.pwm m.minstart, Event.usleep 1000000,
        Event.wfile m.pwm (interpolate m (rfileValue (io.read s m.temp)))] ++
        afterWrite io cfg m.pwm (wfile io m.pwm m.minstart s).st := by
  obtain ⟨ht, hp, hf⟩ := hr
  by_cases hw1 : io.openW s m.pwm = true <;>
  by_cases hw2 : io.openW (wfile io m.pwm m.minstart s).st m.pwm = true <;>
  simp only [wfile, hw1, if_true, if_false] at hw2 <;>
  cases hfan : m.fan with
  | none =>
    have hp0 : rfileValue (io.read s m.pwm) = 0 := by
      rcases hs with h | ⟨fan, h, _⟩
      · exact h
      · simp [hfan] at h
    simp [UpdateFanSpeeds.body, run_bind, Proc.bind, wfile, rfile, run_ite, run_pure, restorefans_run, ht, hfan,
      not_le.mpr h1, not_le.mpr h2, usleep, emit, hp0, readCalls, afterWrite, SECS_TO_US,
      hw1, hw2]
  | some fan =>
    have hf1 := hf fan hfan
    have hs0 : rfileValue (io.read s m.pwm) = 0 ∨ rfileValue (io.read s fan) = 0 := by
      rcases hs with h | ⟨fan2, h, h0⟩
      · exact Or.inl h
      · rw [hfan] at h; cases h; exact Or.inr h0
    simp [UpdateFanSpeeds.body, run_bind, Proc.bind, wfile, rfile, run_ite, run_pure, restorefans_run, ht, hp, hf1, hfan,
      not_le.mpr h1, not_le.mpr h2, usleep, emit, hs0, readCalls, afterWrite, SECS_TO_US,
      hw1, hw2]

theorem body_plain {σ : Type} (io : Sysfs σ) (cfg : Config) (m : Mapping) (s : σ)
    (hr : readsOk io m s)
    (hn : ¬ (mint m < rfileValue (io.read s m.temp) ∧ rfileValue (io.read s m.temp) < maxt m ∧
      stopped io m s)) :
    (UpdateFanSpeeds.body io cfg m s).ev =
      readCalls m ++ [Event.wfile m.pwm (pwmval m (rfileValue (io.read s m.temp)))] ++
        afterWrite io cfg m.pwm s := by
  obtain ⟨ht, hp, hf⟩ := hr
  by_cases hw1 : io.openW s m.pwm = true <;>
  cases hfan : m.fan with
  | none =>
    by_cases h1 : rfileValue (io.read s m.temp) ≤ mint m
    · simp [UpdateFanSpeeds.body, run_bind, Proc.bind, wfile, rfile, run_ite, run_pure, restorefans_run, ht, hp, hfan,
        h1, readCalls, afterWrite, pwmval, hw1]
    · by_cases h2 : maxt m ≤ rfileValue (io.read s m.temp)
      · simp [UpdateFanSpeeds.body, run_bind, Proc.bind, wfile, rfile, run_ite, run_pure, restorefans_run, ht, hp, hfan,
          h1, h2, readCalls, afterWrite, pwmval, hw1]
      · have hp0 : rfileValue (io.read s m.pwm) ≠ 0 := fun h =>
          hn ⟨not_le.mp h1, not_le.mp h2, Or.inl h⟩
        simp [UpdateFanSpeeds.body, run_bind, Proc.bind, wfile, rfile, run_ite, run_pure, restorefans_run, ht, hp, hfan,
          h1, h2, hp0, readCalls, afterWrite, pwmval, hw1]
  | some fan =>
    have hf1 := hf fan hfan
    by_cases h1 : rfileValue (io.read s m.temp) ≤ mint m
    · simp [UpdateFanSpeeds.body, run_bind, Proc.bind, wfile, rfile, run_ite, run_pure, restorefans_run, ht, hp, hf1, hfan,
        h1, readCalls, afterWrite, pwmval, hw1]
    · by_cases h2 : maxt m ≤ rfileValue (io.read s m.temp)
      · simp [UpdateFanSpeeds.body, run_bind, Proc.bind, wfile, rfile, run_ite, run_pure, restorefans_run, ht, hp, hf1, hfan,
          h1, h2, readCalls, afterWrite, pwmval, hw1]
      · have hp0 : rfileValue (io.read s m.pwm) ≠ 0 := fun h =>
          hn ⟨not_le.mp h1, not_le.mp h2, Or.inl h⟩
        have hf0 : rfileValue (io.read s fan) ≠ 0 := fun h =>
          hn ⟨not_le.mp h1, not_le.mp h2, Or.inr ⟨fan, hfan, h⟩⟩
        simp [UpdateFanSpeeds.body, run_bind, Proc.bind, wfile, rfile, run_ite, run_pure, restorefans_run, ht, hp, hf1, hfan,
          h1, h2, hp0, hf0, readCalls, afterWrite, pwmval, hw1]

theorem wrap32_of_inInt32 {x : Int} (h : inInt32 x) : wrap32 x = x := by
  unfold inInt32 at h
  unfold wrap32
  omega

theorem mint_of_inInt32 (m : Mapping) (h : inInt32 (m.mintemp * 1000)) :
    mint m = m.mintemp * 1000 := wrap32_of_inInt32 h

theorem maxt_of_inInt32 (m : Mapping) (h : inInt32 (m.maxtemp * 1000)) :
    maxt m = m.maxtemp * 1000 := wrap32_of_inInt32 h

theorem interpolate_eq_exact (m : Mapping) (t : Int) (h : NoOverflow m t) :
    interpolate m t = interpolateExact m t := by
  obtain ⟨h1, h2, h3, h4, h5, h6, h7, h8⟩ := h
  unfold interpolateExact at h8
  simp only [interpolate, interpolateExact, mint, maxt, wrap32_of_inInt32 h1,
    wrap32_of_inInt32 h2, wrap32_of_inInt32 h3, wrap32_of_inInt32 h4, wrap32_of_inInt32 h5,
    wrap32_of_inInt32 h6, wrap32_of_inInt32 h7, wrap32_of_inInt32 h8]

theorem body_fatal_temp {σ : Type} (io : Sysfs σ) (cfg : Config) (m : Mapping) (s : σ)
    (ht : rfileValue (io.read s m.temp) = -1) :
    UpdateFanSpeeds.body io cfg m s =
      ⟨.error 1, ((restorefans io cfg 1 : Proc σ Unit) s).st,
        [Event.rfile m.temp] ++ ((restorefans io cfg 1 : Proc σ Unit) s).ev⟩ := by
  simp [UpdateFanSpeeds.body, run_bind, Proc.bind, rfile, run_ite, run_pure, restorefans_run, ht]

theorem body_fatal_pwm {σ : Type} (io : Sysfs σ) (cfg : Config) (m : Mapping) (s : σ)
    (ht : rfileValue (io.read s m.temp) ≠ -1) (hp : rfileValue (io.read s m.pwm) = -1) :
    UpdateFanSpeeds.body io cfg m s =
      ⟨.error 1, ((restorefans io cfg 1 : Proc σ Unit) s).st,
        [Event.rfile m.temp, Event.rfile m.pwm] ++ ((restorefans io cfg 1 : Proc σ Unit) s).ev⟩ := by
  simp [UpdateFanSpeeds.body, run_bind, Proc.bind, rfile, run_ite, run_pure, restorefans_run, ht,
    hp]

theorem body_fatal_fan {σ : Type} (io : Sysfs σ) (cfg : Config) (m : Mapping) (s : σ)
    (ht : rfileValue (io.read s m.temp) ≠ -1) (hp : rfileValue (io.read s m.pwm) ≠ -1)
    (fan : Str) (hfan : m.fan = some fan) (hf : rfileValue (io.read s fan) = -1) :
    UpdateFanSpeeds.body io cfg m s =
      ⟨.error 1, ((restorefans io cfg 1 : Proc σ Unit) s).st,
        [Event.rfile m.temp, Event.rfile m.pwm, Event.rfile fan] ++
          ((restorefans io cfg 1 : Proc σ Unit) s).ev⟩ := by
  simp [UpdateFanSpeeds.body, run_bind, Proc.bind, rfile, run_ite, run_pure, restorefans_run, ht,
    hp, hfan, hf]

theorem restorefans_loop_ev {σ : Type} (io : Sysfs σ) (ms : List Mapping) (s : σ) :
    ∃ segs : List (List Event), (restorefans.loop io ms s).ev = segs.flatten ∧
      List.Forall₂ (fun m seg => ∃ s1, seg = (pwmdisable io m.pwm s1).ev) ms segs := by
  induction ms generalizing s with
  | nil => exact ⟨[], rfl, List.Forall₂.nil⟩
  | cons m ms ih =>
    obtain ⟨r, hr⟩ := pwmdisable_res io m.pwm s
    obtain ⟨segs, h1, h2⟩ := ih (pwmdisable io m.pwm s).st
    refine ⟨(pwmdisable io m.pwm s).ev :: segs, ?_, List.Forall₂.cons ⟨s, rfl⟩ h2⟩
    simp only [restorefans.loop, run_bind, Proc.bind, hr, h1, List.flatten_cons]

/-! ## Facts about `LoadConfig` -/

theorem loop_ok (r : Raw) (toks : List Str) (done : List Mapping) (cfg : Config)
    (h : LoadConfig.loop r done toks = .returned 0 cfg) :
    cfg = ⟨r.interval, r.devpath, r.devname, done ++ toks.map (LoadConfig.filled r)⟩ ∧
      ∀ tok ∈ toks, (LoadConfig.filled r tok).valid := by
  induction toks generalizing done with
  | nil =>
    simp only [LoadConfig.loop, LoadResult.returned.injEq, true_and] at h
    simp [← h]
  | cons ptr rest ih =>
    simp only [LoadConfig.loop] at h
    split at h
    · simp at h
    split at h
    · simp at h
    split at h
    · simp at h
    split at h
    · simp at h
    split at h
    · simp at h
    split at h
    · simp at h
    split at h
    · simp at h
    split at h
    · simp at h
    obtain ⟨h1, h2⟩ := ih _ h
    refine ⟨by simpa using h1, ?_⟩
    intro tok htok
    rcases List.mem_cons.mp htok with rfl | htok
    · unfold Mapping.valid
      omega
    · exact h2 tok htok

theorem loop_code (r : Raw) (toks : List Str) (done : List Mapping) (code : Int) (cfg : Config)
    (h : LoadConfig.loop r done toks = .returned code cfg) : code = 0 ∨ code = -1 := by
  induction toks generalizing done with
  | nil =>
    simp only [LoadConfig.loop, LoadResult.returned.injEq] at h
    exact Or.inl h.1.symm
  | cons ptr rest ih =>
    simp only [LoadConfig.loop] at h
    split at h
    · simp only [LoadResult.returned.injEq] at h; exact Or.inr h.1.symm
    split at h
    · simp at h
    split at h
    · simp only [LoadResult.returned.injEq] at h; exact Or.inr h.1.symm
    split at h
    · simp only [LoadResult.returned.injEq] at h; exact Or.inr h.1.symm
    split at h
    · simp only [LoadResult.returned.injEq] at h; exact Or.inr h.1.symm
    split at h
    · simp only [LoadResult.returned.injEq] at h; exact Or.inr h.1.symm
    split at h
    · simp only [LoadResult.returned.injEq] at h; exact Or.inr h.1.symm
    split at h
    · simp only [LoadResult.returned.injEq] at h; exact Or.inr h.1.symm
    exact ih _ h

theorem loop_defined (r : Raw) (toks : List Str) (done : List Mapping)
    (h : done.length + toks.length ≤ MAXMAPPINGS) :
    ∃ code cfg, LoadConfig.loop r done toks = .returned code cfg := by
  induction toks generalizing done with
  | nil => exact ⟨_, _, rfl⟩
  | cons ptr rest ih =>
    simp only [LoadConfig.loop]
    split
    · exact ⟨_, _, rfl⟩
    split
    · simp only [List.length_cons] at h; omega
    split
    · exact ⟨_, _, rfl⟩
    split
    · exact ⟨_, _, rfl⟩
    split
    · exact ⟨_, _, rfl⟩
    split
    · exact ⟨_, _, rfl⟩
    split
    · exact ⟨_, _, rfl⟩
    split
    · exact ⟨_, _, rfl⟩
    apply ih
    simp only [List.length_append, List.length_cons, List.length_nil] at h ⊢
    omega

theorem loop_tokens (r : Raw) (toks : List Str) (done : List Mapping) (cfg : Config)
    (h : LoadConfig.loop r done toks = .returned 0 cfg) :
    ∀ tok ∈ toks, '=' ∈ tok := by
  induction toks generalizing done with
  | nil => intro tok htok; cases htok
  | cons ptr rest ih =>
    simp only [LoadConfig.loop] at h
    split at h
    · simp at h
    rename_i heq
    split at h
    · simp at h
    split at h
    · simp at h
    split at h
    · simp at h
    split at h
    · simp at h
    split at h
    · simp at h
    split at h
    · simp at h
    split at h
    · simp at h
    intro tok htok
    rcases List.mem_cons.mp htok with rfl | htok
    · simpa using heq
    · exact ih _ h tok htok

/-- What a successful `LoadConfig` has read and built. -/
theorem LoadConfig_ok (file : Option Str) (cfg : Config)
    (h : LoadConfig file = .returned 0 cfg) :
    ∃ text fctemps, file = some text ∧ (LoadConfig.read text).fctemps = some fctemps ∧
      0 < (LoadConfig.read text).interval ∧
      cfg = ⟨(LoadConfig.read text).interval, (LoadConfig.read text).devpath,
        (LoadConfig.read text).devname,
        (strtokAll fctemps).map (LoadConfig.filled (LoadConfig.read text))⟩ ∧
      (∀ tok ∈ strtokAll fctemps, (LoadConfig.filled (LoadConfig.read text) tok).valid) ∧
      ∀ tok ∈ strtokAll fctemps, '=' ∈ tok := by
  cases file with
  | none => simp [LoadConfig] at h
  | some text =>
    simp only [LoadConfig] at h
    split at h
    · rename_i fctemps _ _ _ _ h1 _ _ _ _
      split at h
      · simp at h
      · rename_i hi
        split at h
        · simp at h
        · rename_i ptr rest htoks
          rw [← htoks] at h
          obtain ⟨h2, h3⟩ := loop_ok _ _ _ _ h
          exact ⟨text, fctemps, rfl, h1, by omega, by simpa using h2, h3, loop_tokens _ _ _ _ h⟩
    · simp at h

theorem foldl_last {α β : Type} (p : β → Bool) (g : β → α) (ls : List β) (acc : α) :
    ls.foldl (fun a l => if p l then g l else a) acc =
      (((ls.filter p).getLast?).map g).getD acc := by
  induction ls generalizing acc with
  | nil => rfl
  | cons l ls ih =>
    rw [List.foldl_cons, ih]
    by_cases hp : p l = true
    · rw [List.filter_cons_of_pos hp]
      simp only [hp, if_true]
      cases hf : List.filter p ls with
      | nil => rfl
      | cons x xs =>
        rw [List.getLast?_cons_cons]
        have hy : ∃ y, (x :: xs).getLast? = some y :=
          ⟨_, List.getLast?_eq_getLast _ (List.cons_ne_nil x xs)⟩
        obtain ⟨y, hy⟩ := hy
        simp [hy]
    · rw [List.filter_cons_of_neg hp]
      simp [hp]

theorem read_field {α : Type} (get : Raw → α) (p : Str → Bool) (g : Str → α)
    (h : ∀ r l, get (LoadConfig.line r l) = if p l then g l else get r)
    (ls : List Str) (r : Raw) :
    get (ls.foldl LoadConfig.line r) = (((ls.filter p).getLast?).map g).getD (get r) := by
  rw [← foldl_last]
  induction ls generalizing r with
  | nil => rfl
  | cons l ls ih => rw [List.foldl_cons, List.foldl_cons, ih, h]

theorem line_option (pre : Str) (get : Raw → Option Str)
    (h : ∀ r l, l.head? ≠ some '#' →
      get (LoadConfig.line r l) = copy_from_config (stripNewline l) pre (get r))
    (r : Raw) (l : Str) :
    get (LoadConfig.line r l) =
      if isSetting pre l then some ((stripNewline l).drop pre.length) else get r := by
  by_cases hc : l.head? = some '#'
  · simp [LoadConfig.line, isSetting, hc]
  · rw [h r l hc]
    simp [isSetting, copy_from_config, hc]

theorem read_option (pre : Str) (get : Raw → Option Str)
    (h : ∀ r l, l.head? ≠ some '#' →
      get (LoadConfig.line r l) = copy_from_config (stripNewline l) pre (get r))
    (h0 : get Raw.init = none) (text : Str) :
    get (LoadConfig.read text) = setting pre text := by
  unfold LoadConfig.read setting
  rw [read_field get _ _ (line_option pre get h), h0]
  cases ((readLines text.length text).filter (isSetting pre)).getLast? <;> rfl

theorem read_fctemps (text : Str) :
    (LoadConfig.read text).fctemps = setting "FCTEMPS=".toList text :=
  read_option _ (fun r => r.fctemps) (fun r l hc => by simp [LoadConfig.line, hc]) rfl text

theorem read_mintemp (text : Str) :
    (LoadConfig.read text).mintemp = setting "MINTEMP=".toList text :=
  read_option _ (fun r => r.mintemp) (fun r l hc => by simp [LoadConfig.line, hc]) rfl text

theorem read_maxtemp (text : Str) :
    (LoadConfig.read text).maxtemp = setting "MAXTEMP=".toList text :=
  read_option _ (fun r => r.maxtemp) (fun r l hc => by simp [LoadConfig.line, hc]) rfl text

theorem read_minstart (text : Str) :
    (LoadConfig.read text).minstart = setting "MINSTART=".toList text :=
  read_option _ (fun r => r.minstart) (fun r l hc => by simp [LoadConfig.line, hc]) rfl text

theorem read_minstop (text : Str) :
    (LoadConfig.read text).minstop = setting "MINSTOP=".toList text :=
  read_option _ (fun r => r.minstop) (fun r l hc => by simp [LoadConfig.line, hc]) rfl text

theorem read_fcfans (text : Str) :
    (LoadConfig.read text).fcfans = setting "FCFANS=".toList text :=
  read_option _ (fun r => r.fcfans) (fun r l hc => by simp [LoadConfig.line, hc]) rfl text

theorem read_minpwm (text : Str) :
    (LoadConfig.read text).minpwm = setting "MINPWM=".toList text :=
  read_option _ (fun r => r.minpwm) (fun r l hc => by simp [LoadConfig.line, hc]) rfl text

theorem read_maxpwm (text : Str) :
    (LoadConfig.read text).maxpwm = setting "MAXPWM=".toList text :=
  read_option _ (fun r => r.maxpwm) (fun r l hc => by simp [LoadConfig.line, hc]) rfl text

theorem read_interval (text : Str) :
    (LoadConfig.read text).interval =
      match setting "INTERVAL=".toList text with
      | none => -1
      | some v => atoi v := by
  unfold LoadConfig.read setting
  rw [read_field (fun r => r.interval) (isSetting "INTERVAL=".toList)
    (fun l => atoi ((stripNewline l).drop "INTERVAL=".toList.length))]
  · cases ((readLines text.length text).filter (isSetting "INTERVAL=".toList)).getLast? <;> rfl
  · intro r l
    by_cases hc : l.head? = some '#'
    · simp [LoadConfig.line, isSetting, hc]
    · simp [LoadConfig.line, isSetting, hc]

theorem startswith_takeWhile (search ptr : Str) (hs : ' ' ∉ search)
    (h : startswith ptr search = true) :
    startswith (ptr.takeWhile (fun c => c ≠ ' ')) search = true := by
  unfold startswith at h ⊢
  induction search generalizing ptr with
  | nil => simp
  | cons a as ih =>
    cases ptr with
    | nil => simp at h
    | cons c cs =>
      simp only [List.isPrefixOf_cons₂, Bool.and_eq_true, beq_iff_eq] at h
      obtain ⟨rfl, h2⟩ := h
      have ha : a ≠ ' ' := fun e => hs (by simp [e])
      have has : ' ' ∉ as := fun e => hs (List.mem_cons_of_mem _ e)
      have h3 := ih cs has h2
      simp only [List.takeWhile_cons, ne_eq, ha, not_false_eq_true, decide_True, if_true,
        List.isPrefixOf_cons₂, beq_self_eq_true, Bool.true_and]
      exact h3

theorem splitSpaces_eq (ptr : Str) :
    splitSpaces ptr = ptr.takeWhile (fun c => c ≠ ' ') ::
      (match ptr.dropWhile (fun c => c ≠ ' ') with
        | [] => []
        | _ :: cs => splitSpaces cs) := by
  induction ptr with
  | nil => rfl
  | cons c cs ih =>
    by_cases hc : c = ' '
    · simp [splitSpaces, hc]
    · simp only [splitSpaces, hc, if_false]
      rw [ih]
      simp [List.takeWhile_cons, List.dropWhile_cons, hc]

theorem loop_nil (search : Str) (fuel : Nat) : get_matching_part.loop search fuel [] = none := by
  cases fuel <;> simp [get_matching_part.loop]

theorem loop_none (search : Str) (hs : ' ' ∉ search) (fuel : Nat) (ptr : Str)
    (h : ∀ tok ∈ splitSpaces ptr, startswith tok search = false) :
    get_matching_part.loop search fuel ptr = none := by
  induction fuel generalizing ptr with
  | zero => rfl
  | succ fuel ih =>
    rw [splitSpaces_eq] at h
    unfold get_matching_part.loop
    split
    · rfl
    split
    · rename_i hp
      have := h _ (List.mem_cons_self _ _)
      rw [startswith_takeWhile search ptr hs hp] at this
      cases this
    · cases hd : ptr.dropWhile (fun c => c ≠ ' ') with
      | nil => simp [loop_nil]
      | cons d ds =>
        rw [hd] at h
        simp only [List.drop_succ_cons, List.drop_zero]
        exact ih ds (fun tok htok => h tok (List.mem_cons_of_mem _ htok))

theorem not_space_of_mem_splitSpaces (s : Str) : ∀ tok ∈ splitSpaces s, ' ' ∉ tok := by
  induction s with
  | nil => intro tok h; simp [splitSpaces] at h; simp [h]
  | cons c cs ih =>
    intro tok h
    by_cases hc : c = ' '
    · simp only [splitSpaces, hc, if_true, List.mem_cons] at h
      rcases h with rfl | h
      · simp
      · exact ih tok h
    · simp only [splitSpaces, hc, if_false] at h
      cases hs : splitSpaces cs with
      | nil => simp [hs] at h; simp [h]; exact fun e => hc e.symm
      | cons t ts =>
        rw [hs] at h ih
        simp only [List.mem_cons] at h
        rcases h with rfl | h
        · have := ih t (List.mem_cons_self _ _)
          simp only [List.mem_cons, not_or]
          exact ⟨fun e => hc e.symm, this⟩
        · exact ih tok (List.mem_cons_of_mem _ h)

theorem get_matching_part_none (list : Option Str) (key : Str) (hlen : key.length ≤ 62)
    (hsp : ' ' ∉ key) (h : noEntry list key) : get_matching_part list key = none := by
  cases list with
  | none => rfl
  | some full =>
    have hs : snprintf64 (key ++ "=".toList) = key ++ "=".toList := by
      unfold snprintf64
      apply List.take_of_length_le
      simp
      omega
    simp only [get_matching_part, hs]
    apply loop_none
    · simp [hsp]
    · intro tok htok
      simpa using h full rfl tok htok

theorem fgets_go_length (room : Nat) (f : Str) : (fgets.go room f).2.length ≤ f.length := by
  induction room generalizing f with
  | zero => simp [fgets.go]
  | succ room ih =>
    cases f with
    | nil => simp [fgets.go]
    | cons c cs =>
      simp only [fgets.go]
      split
      · simp
      · exact Nat.le_succ_of_le (ih cs)

theorem fgets_length (f line rest : Str) (h : fgets 512 f = some (line, rest)) :
    rest.length < f.length := by
  unfold fgets at h
  cases f with
  | nil => simp at h
  | cons c cs =>
    simp only [reduceCtorEq, if_false, Option.some.injEq] at h
    have h2 : rest = (fgets.go 511 (c :: cs)).2 := by rw [h]
    rw [h2]
    simp only [fgets.go]
    split
    · simp
    · exact Nat.lt_succ_of_le (fgets_go_length 510 cs)

/-- More fuel than the length of the text does not change what `readLines` reads. -/
theorem readLines_fuel (n k : Nat) (text : Str) (hn : text.length ≤ n) (hk : text.length ≤ k) :
    readLines n text = readLines k text := by
  induction n generalizing k text with
  | zero =>
    have ht : text = [] := List.length_eq_zero.mp (Nat.le_zero.mp hn)
    subst ht
    cases k <;> simp [readLines, fgets]
  | succ n ih =>
    cases k with
    | zero =>
      have ht : text = [] := List.length_eq_zero.mp (Nat.le_zero.mp hk)
      subst ht
      simp [readLines, fgets]
    | succ k =>
      simp only [readLines]
      cases hf : fgets 512 text with
      | none => rfl
      | some lr =>
        obtain ⟨line, rest⟩ := lr
        have := fgets_length text line rest hf
        simp only
        rw [ih k rest (by omega) (by omega)]

/-- More fuel than the length of the list does not change what the loop of
`get_matching_part` finds. -/
theorem loop_fuel (search : Str) (n k : Nat) (ptr : Str) (hn : ptr.length ≤ n)
    (hk : ptr.length ≤ k) :
    get_matching_part.loop search n ptr = get_matching_part.loop search k ptr := by
  induction n generalizing k ptr with
  | zero =>
    have ht : ptr = [] := List.length_eq_zero.mp (Nat.le_zero.mp hn)
    subst ht
    rw [loop_nil, loop_nil]
  | succ n ih =>
    cases k with
    | zero =>
      have ht : ptr = [] := List.length_eq_zero.mp (Nat.le_zero.mp hk)
      subst ht
      rw [loop_nil, loop_nil]
    | succ k =>
      cases ptr with
      | nil => rw [loop_nil, loop_nil]
      | cons c cs =>
        have hlen : (((c :: cs).dropWhile (fun c => c ≠ ' ')).drop 1).length ≤ cs.length := by
          by_cases hc : c = ' '
          · simp [List.dropWhile_cons, hc]
          · simp only [List.dropWhile_cons, ne_eq, hc, not_false_eq_true, decide_True, if_true,
              List.length_drop]
            have := (List.dropWhile_sublist (l := cs) (fun c => decide (¬ c = ' '))).length_le
            omega
        simp only [List.length_cons] at hn hk
        simp only [get_matching_part.loop]
        rw [ih k _ (by omega) (by omega)]

theorem rfileValue_eq_neg_one (content : Option Str) :
    rfileValue content = -1 ↔
      content = none ∨ ∃ bytes, content = some bytes ∧
        (strtol (bytes.take 12) = none ∨
          ∃ v, strtol (bytes.take 12) = some v ∧ wrap32 v = -1) := by
  cases content with
  | none => simp [rfileValue]
  | some bytes =>
    simp only [rfileValue, reduceCtorEq, Option.some.injEq, exists_eq_left', false_or]
    cases strtol (bytes.take 12) with
    | none => simp
    | some v => simp

theorem body_fatal {σ : Type} (io : Sysfs σ) (cfg : Config) (m : Mapping) (s : σ)
    (h : ¬ readsOk io m s) :
    (UpdateFanSpeeds.body io cfg m s).res = .error 1 ∧
      ∃ pre, pre <+: readCalls m ∧ pre ≠ [] ∧
        (UpdateFanSpeeds.body io cfg m s).ev = pre ++ ((restorefans io cfg 1 : Proc σ Unit) s).ev := by
  by_cases ht : rfileValue (io.read s m.temp) = -1
  · rw [body_fatal_temp io cfg m s ht]
    refine ⟨rfl, [Event.rfile m.temp], ?_, by simp, rfl⟩
    unfold readCalls
    split <;> simp
  · by_cases hp : rfileValue (io.read s m.pwm) = -1
    · rw [body_fatal_pwm io cfg m s ht hp]
      refine ⟨rfl, [Event.rfile m.temp, Event.rfile m.pwm], ?_, by simp, rfl⟩
      unfold readCalls
      split <;> simp
    · have hf : ∃ fan, m.fan = some fan ∧ rfileValue (io.read s fan) = -1 := by
        by_contra hn
        apply h
        refine ⟨ht, hp, fun fan hfan hv => hn ⟨fan, hfan, hv⟩⟩
      obtain ⟨fan, hfan, hv⟩ := hf
      rw [body_fatal_fan io cfg m s ht hp fan hfan hv]
      refine ⟨rfl, [Event.rfile m.temp, Event.rfile m.pwm, Event.rfile fan], ?_, by simp, rfl⟩
      unfold readCalls
      simp [hfan]

theorem LoadConfig_code (file : Option Str) (code : Int) (cfg : Config)
    (h : LoadConfig file = .returned code cfg) : code = 0 ∨ code = -1 := by
  cases file with
  | none => simp only [LoadConfig, LoadResult.returned.injEq] at h; exact Or.inr h.1.symm
  | some text =>
    simp only [LoadConfig] at h
    split at h
    · split at h
      · simp only [LoadResult.returned.injEq] at h; exact Or.inr h.1.symm
      · split at h
        · simp at h
        · exact loop_code _ _ _ _ _ h
    · simp only [LoadResult.returned.injEq] at h; exact Or.inr h.1.symm

theorem LoadConfig_defined (text fctemps : Str)
    (h1 : (LoadConfig.read text).fctemps = some fctemps)
    (h2 : strtokAll fctemps ≠ []) (h3 : (strtokAll fctemps).length ≤ MAXMAPPINGS) :
    ∃ code cfg, LoadConfig (some text) = .returned code cfg := by
  simp only [LoadConfig]
  split
  · rename_i fctemps2 _ _ _ _ h1b _ _ _ _
    have : fctemps2 = fctemps := by rw [h1] at h1b; exact (Option.some.inj h1b).symm
    subst this
    split
    · exact ⟨_, _, rfl⟩
    · split
      · rename_i hnil; exact absurd hnil h2
      · rename_i ptr rest htoks
        rw [← htoks]
        exact loop_defined _ _ _ (by simpa using h3)
  · exact ⟨_, _, rfl⟩

theorem mem_strtokAll (s tok : Str) (h : tok ∈ strtokAll s) : ' ' ∉ tok := by
  unfold strtokAll at h
  exact not_space_of_mem_splitSpaces s tok (List.mem_filter.mp h).1

theorem takeWhile_append_dropWhile_eq (tok : Str) (h : '=' ∈ tok) :
    tok = tok.takeWhile (fun c => c ≠ '=') ++
      '=' :: (tok.dropWhile (fun c => c ≠ '=')).drop 1 := by
  induction tok with
  | nil => cases h
  | cons c cs ih =>
    by_cases hc : c = '='
    · simp [List.takeWhile_cons, List.dropWhile_cons, hc]
    · have hcs : '=' ∈ cs := by
        rcases List.mem_cons.mp h with e | e
        · exact absurd e.symm hc
        · exact e
      have := ih hcs
      simp only [List.takeWhile_cons, ne_eq, hc, not_false_eq_true, decide_True, if_true,
        List.dropWhile_cons, List.cons_append, List.cons.injEq, true_and]
      exact this

theorem not_mem_takeWhile (tok : Str) (c : Char) : c ∉ tok.takeWhile (fun d => d ≠ c) := by
  intro h
  have := List.mem_takeWhile_imp h
  simp at this

/-! ## Facts about `CheckFiles` -/

theorem accessPtr_run {σ : Type} (io : Sysfs σ) (path : Option Str) (mode : Mode) (s : σ) :
    accessPtr io path mode s =
      ⟨.ok (match path with
          | some p => io.access s p mode
          | none => false), s,
        [match path with
          | some p => Event.access p mode
          | none => Event.accessNull mode]⟩ := by
  cases path <;> rfl

theorem CheckFiles_entry_run {σ : Type} (io : Sysfs σ) (m : Mapping) (o : Int) (s : σ) :
    CheckFiles.entry io m o s =
      ⟨.ok (if CheckFiles.passes io s m then o else 1), s, CheckFiles.calls m⟩ := by
  unfold CheckFiles.passes
  cases hfan : m.fan with
  | none =>
    by_cases h1 : io.access s m.pwm Mode.W_OK = true <;>
    by_cases h2 : io.access s m.temp Mode.R_OK = true <;>
    simp [CheckFiles.entry, run_bind, Proc.bind, run_pure, access_run, accessPtr_run, hfan,
      CheckFiles.calls, h1, h2]
  | some fan =>
    by_cases h1 : io.access s m.pwm Mode.W_OK = true <;>
    by_cases h2 : io.access s m.temp Mode.R_OK = true <;>
    by_cases h3 : io.access s fan Mode.R_OK = true <;>
    simp [CheckFiles.entry, run_bind, Proc.bind, run_pure, access_run, accessPtr_run, hfan,
      CheckFiles.calls, h1, h2, h3]

theorem CheckFiles_loop_run {σ : Type} (io : Sysfs σ) (ms : List Mapping) (o : Int) (s : σ) :
    CheckFiles.loop io ms o s =
      ⟨.ok (if ms.all (CheckFiles.passes io s) then o else 1), s,
        (ms.map CheckFiles.calls).flatten⟩ := by
  induction ms generalizing o with
  | nil => simp [CheckFiles.loop, run_pure]
  | cons m ms ih =>
    simp only [CheckFiles.loop, run_bind, Proc.bind, CheckFiles_entry_run, ih]
    by_cases h1 : CheckFiles.passes io s m = true <;>
    by_cases h2 : ms.all (CheckFiles.passes io s) = true <;>
    simp [h1, h2]

theorem CheckFiles_run {σ : Type} (io : Sysfs σ) (cfg : Config) (s : σ) :
    CheckFiles io cfg s =
      ⟨.ok (if cfg.afc.all (CheckFiles.passes io s) then 0 else -1), s,
        (cfg.afc.map CheckFiles.calls).flatten⟩ := by
  simp only [CheckFiles, run_bind, Proc.bind, CheckFiles_loop_run, run_pure]
  by_cases h : cfg.afc.all (CheckFiles.passes io s) = true <;> simp [h]

theorem CheckFiles_passes_iff {σ : Type} (io : Sysfs σ) (s : σ) (m : Mapping) :
    CheckFiles.passes io s m = true ↔
      io.access s m.pwm Mode.W_OK = true ∧ io.access s m.temp Mode.R_OK = true ∧
        ∃ fan, m.fan = some fan ∧ io.access s fan Mode.R_OK = true := by
  unfold CheckFiles.passes
  cases m.fan with
  | none => simp
  | some fan => simp [and_assoc]

/-! ## Facts about the path to the sensors -/

theorem dropWhile_append_of_all {α : Type} (p : α → Bool) (ds l : List α)
    (h : ∀ c ∈ ds, p c = true) : (ds ++ l).dropWhile p = l.dropWhile p := by
  induction ds with
  | nil => rfl
  | cons d ds ih =>
    have hd := h d (List.mem_cons_self _ _)
    simp only [List.cons_append, List.dropWhile_cons, hd, if_true]
    exact ih (fun c hc => h c (List.mem_cons_of_mem _ hc))

theorem check_i2c_regex_iff (p : Str) : check_i2c_regex p = true ↔ matchesI2c p := by
  unfold check_i2c_regex matchesI2c
  simp only [Bool.and_eq_true, decide_eq_true_eq]
  constructor
  · rintro ⟨hlen, hhead⟩
    refine ⟨p.takeWhile isdigit, (p.dropWhile isdigit).tail, ?_, ?_, ?_⟩
    · intro h
      have h2 := List.takeWhile_append_dropWhile isdigit p
      rw [h] at h2
      simp only [List.nil_append] at h2
      rw [h2] at hlen
      exact absurd hlen (lt_irrefl _)
    · intro c hc
      exact List.mem_takeWhile_imp hc
    · have h2 := (List.takeWhile_append_dropWhile isdigit p).symm
      cases hd : p.dropWhile isdigit with
      | nil => rw [hd] at hhead; simp at hhead
      | cons d ds =>
        rw [hd] at hhead h2
        simp only [List.head?_cons, Option.some.injEq] at hhead
        rw [hhead] at h2
        simpa using h2
  · rintro ⟨ds, rest, hne, hall, rfl⟩
    rw [dropWhile_append_of_all isdigit ds _ hall]
    have hm : isdigit '-' = false := by decide
    simp only [List.dropWhile_cons, hm, Bool.false_eq_true, if_false, List.length_cons,
      List.length_append, List.head?_cons, and_true]
    have : 0 < ds.length := List.length_pos.mpr hne
    omega

/-! ## Facts about the duty cycle -/

theorem interpolateExact_bounds (m : Mapping) (t : Int)
    (h1 : m.mintemp * 1000 < t) (h2 : t < m.maxtemp * 1000) (hd : m.minstop < m.maxpwm) :
    m.minstop ≤ interpolateExact m t ∧ interpolateExact m t ≤ m.maxpwm - 1 := by
  unfold interpolateExact
  have hx : 0 ≤ t - m.mintemp * 1000 := by omega
  have hD : 0 < m.maxtemp * 1000 - m.mintemp * 1000 := by omega
  have hdd : 0 ≤ m.maxpwm - m.minstop := by omega
  have hnum : 0 ≤ (t - m.mintemp * 1000) * (m.maxpwm - m.minstop) := Int.mul_nonneg hx hdd
  rw [Int.tdiv_eq_ediv hnum (le_of_lt hD)]
  have hq0 : 0 ≤ (t - m.mintemp * 1000) * (m.maxpwm - m.minstop) /
      (m.maxtemp * 1000 - m.mintemp * 1000) := Int.ediv_nonneg hnum (le_of_lt hD)
  have hq1 : (t - m.mintemp * 1000) * (m.maxpwm - m.minstop) /
      (m.maxtemp * 1000 - m.mintemp * 1000) < m.maxpwm - m.minstop := by
    apply Int.ediv_lt_of_lt_mul hD
    have : t - m.mintemp * 1000 < m.maxtemp * 1000 - m.mintemp * 1000 := by omega
    have hpos : 0 < m.maxpwm - m.minstop := by omega
    rw [mul_comm (m.maxpwm - m.minstop)]
    exact Int.mul_lt_mul_of_pos_right this hpos
  constructor <;> omega

theorem interpolateExact_mono (m : Mapping) (t1 t2 : Int) (h : t1 ≤ t2)
    (h1 : m.mintemp * 1000 < t1) (h2 : t2 < m.maxtemp * 1000) (hd : m.minstop < m.maxpwm) :
    interpolateExact m t1 ≤ interpolateExact m t2 := by
  unfold interpolateExact
  have hD : 0 < m.maxtemp * 1000 - m.mintemp * 1000 := by omega
  have hdd : 0 ≤ m.maxpwm - m.minstop := by omega
  have hn1 : 0 ≤ (t1 - m.mintemp * 1000) * (m.maxpwm - m.minstop) :=
    Int.mul_nonneg (by omega) hdd
  have hn2 : 0 ≤ (t2 - m.mintemp * 1000) * (m.maxpwm - m.minstop) :=
    Int.mul_nonneg (by omega) hdd
  rw [Int.tdiv_eq_ediv hn1 (le_of_lt hD), Int.tdiv_eq_ediv hn2 (le_of_lt hD)]
  have hle : (t1 - m.mintemp * 1000) * (m.maxpwm - m.minstop) ≤
      (t2 - m.mintemp * 1000) * (m.maxpwm - m.minstop) :=
    Int.mul_le_mul_of_nonneg_right (by omega) hdd
  have := Int.ediv_le_ediv hD hle
  omega

/-! ## More facts about `LoadConfig` -/

theorem LoadConfig_mandatory (text : Str) (cfg : Config)
    (h : LoadConfig (some text) = .returned 0 cfg) :
    setting "MINTEMP=".toList text ≠ none ∧ setting "MAXTEMP=".toList text ≠ none ∧
      setting "MINSTART=".toList text ≠ none ∧ setting "MINSTOP=".toList text ≠ none := by
  rw [← read_mintemp, ← read_maxtemp, ← read_minstart, ← read_minstop]
  simp only [LoadConfig] at h
  split at h
  · rename_i h1 h2 h3 h4 h5
    rw [h2, h3, h4, h5]
    simp
  · simp at h

theorem keyed_fan (r : Raw) (tok : Str) :
    (LoadConfig.keyed r tok).fan =
      get_matching_part r.fcfans (tok.takeWhile (fun c => c ≠ '=')) := by
  unfold LoadConfig.keyed
  cases r.fcfans <;> rfl

theorem loop_noplus (r : Raw) (toks : List Str) (done : List Mapping) (cfg : Config)
    (h : LoadConfig.loop r done toks = .returned 0 cfg) :
    ∀ tok ∈ toks,
      (LoadConfig.keyed r tok).fan.any (fun fan => fan.any (fun c => c = '+')) = false := by
  induction toks generalizing done with
  | nil => intro tok htok; cases htok
  | cons ptr rest ih =>
    simp only [LoadConfig.loop] at h
    split at h
    · simp at h
    split at h
    · simp at h
    split at h
    · simp at h
    rename_i hplus
    split at h
    · simp at h
    split at h
    · simp at h
    split at h
    · simp at h
    split at h
    · simp at h
    split at h
    · simp at h
    intro tok htok
    rcases List.mem_cons.mp htok with rfl | htok
    · simpa using hplus
    · exact ih _ h tok htok

theorem LoadConfig_noplus (text fctemps : Str) (cfg : Config)
    (h : LoadConfig (some text) = .returned 0 cfg)
    (hf : setting "FCTEMPS=".toList text = some fctemps) :
    ∀ tok ∈ strtokAll fctemps, ∀ fan,
      get_matching_part (setting "FCFANS=".toList text) (tok.takeWhile (fun c => c ≠ '=')) =
        some fan → '+' ∉ fan := by
  simp only [LoadConfig] at h
  split at h
  · rename_i fctemps2 _ _ _ _ h1 _ _ _ _
    rw [read_fctemps, hf] at h1
    cases h1
    split at h
    · simp at h
    · split at h
      · simp at h
      · rename_i ptr rest htoks
        rw [← htoks] at h
        intro tok htok fan hfan hin
        have := loop_noplus _ _ _ _ h tok htok
        rw [keyed_fan, read_fcfans, hfan] at this
        simp only [Option.any_some, List.any_eq_false, decide_eq_true_eq] at this
        exact this '+' hin rfl
  · simp at h

theorem loop_code_congr (r r2 : Raw)
    (e1 : r.mintemp = r2.mintemp) (e2 : r.maxtemp = r2.maxtemp)
    (e4 : r.minstop = r2.minstop)
    (e5 : r.minpwm = r2.minpwm) (e6 : r.maxpwm = r2.maxpwm)
    (toks : List Str) (done done2 : List Mapping) (hlen : done.length = done2.length)
    (hp : ∀ tok ∈ toks,
      (LoadConfig.keyed r tok).fan.any (fun fan => fan.any (fun c => c = '+')) = false)
    (hp2 : ∀ tok ∈ toks,
      (LoadConfig.keyed r2 tok).fan.any (fun fan => fan.any (fun c => c = '+')) = false) :
    (LoadConfig.loop r done toks).code = (LoadConfig.loop r2 done2 toks).code := by
  induction toks generalizing done done2 with
  | nil => rfl
  | cons ptr rest ih =>
    have hp0 := hp ptr (List.mem_cons_self _ _)
    have hp20 := hp2 ptr (List.mem_cons_self _ _)
    have f1 : (LoadConfig.filled r2 ptr).mintemp = (LoadConfig.filled r ptr).mintemp := by
      simp only [LoadConfig.filled, LoadConfig.keyed, e1]
    have f2 : (LoadConfig.filled r2 ptr).maxtemp = (LoadConfig.filled r ptr).maxtemp := by
      simp only [LoadConfig.filled, LoadConfig.keyed, e2]
    have f4 : (LoadConfig.filled r2 ptr).minstop = (LoadConfig.filled r ptr).minstop := by
      simp only [LoadConfig.filled, LoadConfig.keyed, e4]
    have f5 : (LoadConfig.filled r2 ptr).minpwm = (LoadConfig.filled r ptr).minpwm := by
      simp only [LoadConfig.filled, LoadConfig.keyed, e5]
    have f6 : (LoadConfig.filled r2 ptr).maxpwm = (LoadConfig.filled r ptr).maxpwm := by
      simp only [LoadConfig.filled, LoadConfig.keyed, e6]
    simp only [LoadConfig.loop, hp0, hp20, f1, f2, f4, f5, f6, hlen, Bool.false_eq_true,
      if_false]
    by_cases c0 : (ptr.all fun c => decide (c ≠ '=')) = true
    · simp only [c0, if_true, LoadResult.code]
    by_cases c1 : MAXMAPPINGS ≤ done2.length
    · simp only [c0, c1, if_true, LoadResult.code, Bool.false_eq_true, if_false]
    by_cases c2 : (LoadConfig.filled r ptr).mintemp ≥ (LoadConfig.filled r ptr).maxtemp
    · simp only [c0, c1, c2, if_true, LoadResult.code, Bool.false_eq_true, if_false]
    by_cases c3 : (LoadConfig.filled r ptr).maxpwm > 255
    · simp only [c0, c1, c2, c3, if_true, LoadResult.code, Bool.false_eq_true, if_false]
    by_cases c4 : (LoadConfig.filled r ptr).minstop ≥ (LoadConfig.filled r ptr).maxpwm
    · simp only [c0, c1, c2, c3, c4, if_true, LoadResult.code, Bool.false_eq_true, if_false]
    by_cases c5 : (LoadConfig.filled r ptr).minstop < (LoadConfig.filled r ptr).minpwm
    · simp only [c0, c1, c2, c3, c4, c5, if_true, LoadResult.code, Bool.false_eq_true, if_false]
    by_cases c6 : (LoadConfig.filled r ptr).minpwm < 0
    · simp only [c0, c1, c2, c3, c4, c5, c6, if_true, LoadResult.code, Bool.false_eq_true,
        if_false]
    simp only [c0, c1, c2, c3, c4, c5, c6, Bool.false_eq_true, if_false]
    exact ih _ _ (by simp [hlen]) (fun t ht => hp t (List.mem_cons_of_mem _ ht))
      (fun t ht => hp2 t (List.mem_cons_of_mem _ ht))

theorem keyed_noplus (text fctemps : Str)
    (hp : ∀ tok ∈ strtokAll fctemps, ∀ fan,
      get_matching_part (setting "FCFANS=".toList text) (tok.takeWhile (fun c => c ≠ '=')) =
        some fan → '+' ∉ fan) :
    ∀ tok ∈ strtokAll fctemps,
      (LoadConfig.keyed (LoadConfig.read text) tok).fan.any
        (fun fan => fan.any (fun c => c = '+')) = false := by
  intro tok htok
  rw [keyed_fan, read_fcfans]
  cases hfan : get_matching_part (setting "FCFANS=".toList text)
      (tok.takeWhile (fun c => c ≠ '=')) with
  | none => rfl
  | some fan =>
    have := hp tok htok fan hfan
    simp only [Option.any_some, List.any_eq_false, decide_eq_true_eq]
    intro c hc e
    exact this (e ▸ hc)

theorem LoadConfig_code_congr (text text2 : Str)
    (hs : ∀ pre ∈ LoadConfig.otherSettings, setting pre text = setting pre text2)
    (hp : ∀ fctemps, setting "FCTEMPS=".toList text = some fctemps →
      ∀ tok ∈ strtokAll fctemps, ∀ fan,
        get_matching_part (setting "FCFANS=".toList text) (tok.takeWhile (fun c => c ≠ '=')) =
          some fan → '+' ∉ fan)
    (hp2 : ∀ fctemps, setting "FCTEMPS=".toList text2 = some fctemps →
      ∀ tok ∈ strtokAll fctemps, ∀ fan,
        get_matching_part (setting "FCFANS=".toList text2)
          (tok.takeWhile (fun c => c ≠ '=')) = some fan → '+' ∉ fan) :
    (LoadConfig (some text)).code = (LoadConfig (some text2)).code := by
  have e0 : (LoadConfig.read text2).interval = (LoadConfig.read text).interval := by
    rw [read_interval, read_interval, hs _ (by simp [LoadConfig.otherSettings])]
  have e1 : (LoadConfig.read text2).fctemps = (LoadConfig.read text).fctemps := by
    rw [read_fctemps, read_fctemps, hs _ (by simp [LoadConfig.otherSettings])]
  have e2 : (LoadConfig.read text2).mintemp = (LoadConfig.read text).mintemp := by
    rw [read_mintemp, read_mintemp, hs _ (by simp [LoadConfig.otherSettings])]
  have e3 : (LoadConfig.read text2).maxtemp = (LoadConfig.read text).maxtemp := by
    rw [read_maxtemp, read_maxtemp, hs _ (by simp [LoadConfig.otherSettings])]
  have e4 : (LoadConfig.read text2).minstart = (LoadConfig.read text).minstart := by
    rw [read_minstart, read_minstart, hs _ (by simp [LoadConfig.otherSettings])]
  have e5 : (LoadConfig.read text2).minstop = (LoadConfig.read text).minstop := by
    rw [read_minstop, read_minstop, hs _ (by simp [LoadConfig.otherSettings])]
  have e6 : (LoadConfig.read text2).minpwm = (LoadConfig.read text).minpwm := by
    rw [read_minpwm, read_minpwm, hs _ (by simp [LoadConfig.otherSettings])]
  have e7 : (LoadConfig.read text2).maxpwm = (LoadConfig.read text).maxpwm := by
    rw [read_maxpwm, read_maxpwm, hs _ (by simp [LoadConfig.otherSettings])]
  simp only [LoadConfig, e0, e1, e2, e3, e4, e5]
  cases h1 : (LoadConfig.read text).fctemps with
  | none => rfl
  | some fctemps =>
    cases h2 : (LoadConfig.read text).mintemp with
    | none => rfl
    | some _ =>
      cases h3 : (LoadConfig.read text).maxtemp with
      | none => rfl
      | some _ =>
        cases h4 : (LoadConfig.read text).minstart with
        | none => rfl
        | some _ =>
          cases h5 : (LoadConfig.read text).minstop with
          | none => rfl
          | some _ =>
            simp only
            by_cases hi : (LoadConfig.read text).interval ≤ 0
            · simp only [hi, if_true, LoadResult.code]
            · simp only [hi, if_false]
              have hf : setting "FCTEMPS=".toList text = some fctemps := by
                rw [← read_fctemps, h1]
              have hf2 : setting "FCTEMPS=".toList text2 = some fctemps := by
                rw [← read_fctemps, e1, h1]
              cases htoks : strtokAll fctemps with
              | nil => rfl
              | cons ptr rest =>
                simp only
                rw [← htoks]
                exact loop_code_congr _ _ (by rw [e2, h2]) (by rw [e3, h3]) (by rw [e5, h5])
                  e6.symm e7.symm _ _ _ rfl
                  (keyed_noplus text fctemps (hp fctemps hf))
                  (keyed_noplus text2 fctemps (hp2 fctemps hf2))

theorem loop_complete (r : Raw) (toks : List Str) (done : List Mapping)
    (hlen : done.length + toks.length ≤ MAXMAPPINGS)
    (heq : ∀ tok ∈ toks, '=' ∈ tok)
    (hp : ∀ tok ∈ toks,
      (LoadConfig.keyed r tok).fan.any (fun fan => fan.any (fun c => c = '+')) = false)
    (hv : ∀ tok ∈ toks, (LoadConfig.filled r tok).valid) :
    LoadConfig.loop r done toks =
      .returned 0 ⟨r.interval, r.devpath, r.devname, done ++ toks.map (LoadConfig.filled r)⟩ := by
  induction toks generalizing done with
  | nil => simp [LoadConfig.loop]
  | cons ptr rest ih =>
    have h0 : (ptr.all fun c => decide (c ≠ '=')) = false := by
      have := heq ptr (List.mem_cons_self _ _)
      rw [Bool.eq_false_iff]
      intro hall
      rw [List.all_eq_true] at hall
      simpa using hall '=' this
    have h1 : ¬ MAXMAPPINGS ≤ done.length := by
      simp only [List.length_cons] at hlen
      omega
    have h2 := hp ptr (List.mem_cons_self _ _)
    obtain ⟨v1, v2, v3, v4, v5⟩ := hv ptr (List.mem_cons_self _ _)
    simp only [LoadConfig.loop, h0, h1, h2, Bool.false_eq_true, if_false]
    rw [if_neg (by omega), if_neg (by omega), if_neg (by omega), if_neg (by omega),
      if_neg (by omega)]
    rw [ih (done ++ [LoadConfig.filled r ptr])
      (by simp only [List.length_append, List.length_cons, List.length_nil] at hlen ⊢; omega)
      (fun t ht => heq t (List.mem_cons_of_mem _ ht))
      (fun t ht => hp t (List.mem_cons_of_mem _ ht))
      (fun t ht => hv t (List.mem_cons_of_mem _ ht))]
    simp

theorem LoadConfig_complete (text fctemps interval : Str)
    (hf : setting "FCTEMPS=".toList text = some fctemps)
    (hi : setting "INTERVAL=".toList text = some interval) (hpos : 0 < atoi interval)
    (h1 : setting "MINTEMP=".toList text ≠ none) (h2 : setting "MAXTEMP=".toList text ≠ none)
    (h3 : setting "MINSTART=".toList text ≠ none) (h4 : setting "MINSTOP=".toList text ≠ none)
    (hne : strtokAll fctemps ≠ []) (hlen : (strtokAll fctemps).length ≤ MAXMAPPINGS)
    (heq : ∀ tok ∈ strtokAll fctemps, '=' ∈ tok)
    (hp : ∀ tok ∈ strtokAll fctemps, ∀ fan,
      get_matching_part (setting "FCFANS=".toList text) (tok.takeWhile (fun c => c ≠ '=')) =
        some fan → '+' ∉ fan)
    (hv : ∀ tok ∈ strtokAll fctemps, (LoadConfig.filled (LoadConfig.read text) tok).valid) :
    LoadConfig (some text) = .returned 0 ⟨atoi interval, (LoadConfig.read text).devpath,
      (LoadConfig.read text).devname,
      (strtokAll fctemps).map (LoadConfig.filled (LoadConfig.read text))⟩ := by
  have e0 : (LoadConfig.read text).interval = atoi interval := by
    rw [read_interval, hi]
  rw [← read_fctemps] at hf
  rw [← read_mintemp] at h1
  rw [← read_maxtemp] at h2
  rw [← read_minstart] at h3
  rw [← read_minstop] at h4
  obtain ⟨a1, ha1⟩ := Option.ne_none_iff_exists'.mp h1
  obtain ⟨a2, ha2⟩ := Option.ne_none_iff_exists'.mp h2
  obtain ⟨a3, ha3⟩ := Option.ne_none_iff_exists'.mp h3
  obtain ⟨a4, ha4⟩ := Option.ne_none_iff_exists'.mp h4
  have hk := keyed_noplus text fctemps hp
  simp only [LoadConfig, hf, ha1, ha2, ha3, ha4]
  rw [if_neg (by rw [e0]; omega)]
  cases htoks : strtokAll fctemps with
  | nil => exact absurd htoks hne
  | cons ptr rest =>
    simp only
    rw [← htoks, loop_complete _ _ [] (by simpa using hlen) heq hk hv, e0]
    simp

/-! ## Facts about `get_matching_part` -/

theorem startswith_of_takeWhile (search ptr : Str) (p : Char → Bool)
    (h : startswith (ptr.takeWhile p) search = true) : startswith ptr search = true := by
  unfold startswith at h ⊢
  rw [List.isPrefixOf_iff_prefix] at h ⊢
  exact h.trans (List.takeWhile_prefix p)

theorem startswith_length (search tok : Str) (h : startswith tok search = true) :
    search.length ≤ tok.length := by
  unfold startswith at h
  rw [List.isPrefixOf_iff_prefix] at h
  exact h.length_le

theorem takeWhile_drop (p : Char → Bool) (n : Nat) (l : Str)
    (h : n ≤ (l.takeWhile p).length) :
    (l.drop n).takeWhile p = (l.takeWhile p).drop n := by
  induction n generalizing l with
  | zero => rfl
  | succ n ih =>
    cases l with
    | nil => rfl
    | cons c cs =>
      by_cases hc : p c = true
      · simp only [List.takeWhile_cons, hc, if_true, List.length_cons] at h
        simp only [List.drop_succ_cons, List.takeWhile_cons, hc, if_true]
        exact ih cs (by omega)
      · simp [List.takeWhile_cons, hc] at h

theorem loop_find (search : Str) (hs : ' ' ∉ search) (hne : search ≠ []) (fuel : Nat)
    (ptr : Str) (hlen : ptr.length ≤ fuel) :
    get_matching_part.loop search fuel ptr =
      ((splitSpaces ptr).find? (fun tok => startswith tok search)).map
        (fun tok => tok.drop search.length) := by
  have hempty : startswith [] search = false := by
    cases search with
    | nil => exact absurd rfl hne
    | cons a as => rfl
  induction fuel generalizing ptr with
  | zero =>
    have : ptr = [] := List.length_eq_zero.mp (Nat.le_zero.mp hlen)
    subst this
    simp [get_matching_part.loop, splitSpaces, hempty]
  | succ fuel ih =>
    cases ptr with
    | nil => simp [get_matching_part.loop, splitSpaces, hempty]
    | cons c cs =>
      rw [splitSpaces_eq]
      simp only [get_matching_part.loop, reduceCtorEq, if_false, List.find?_cons]
      by_cases hp : startswith (c :: cs) search = true
      · have hp2 := startswith_takeWhile search (c :: cs) hs hp
        simp only [hp, if_true, hp2, Option.map_some']
        rw [takeWhile_drop _ _ _ (startswith_length _ _ hp2)]
      · have hp2 : startswith ((c :: cs).takeWhile (fun c => c ≠ ' ')) search = false := by
          cases h : startswith ((c :: cs).takeWhile (fun c => c ≠ ' ')) search with
          | false => rfl
          | true => exact absurd (startswith_of_takeWhile _ _ _ h) hp
        simp only [hp, Bool.false_eq_true, if_false, hp2]
        have hl : ((c :: cs).dropWhile (fun c => c ≠ ' ')).length ≤ fuel + 1 :=
          le_trans (List.dropWhile_sublist _).length_le hlen
        cases hd : (c :: cs).dropWhile (fun c => c ≠ ' ') with
        | nil => simp [loop_nil]
        | cons d ds =>
          rw [hd] at hl
          simp only [List.drop_succ_cons, List.drop_zero]
          exact ih ds (by simpa using hl)

theorem find_map_congr {α β : Type} (l : List α) (p q : α → Bool) (f g : α → β)
    (h1 : ∀ a ∈ l, p a = q a) (h2 : ∀ a ∈ l, p a = true → f a = g a) :
    (l.find? p).map f = (l.find? q).map g := by
  induction l with
  | nil => rfl
  | cons a as ih =>
    have ha := h1 a (List.mem_cons_self _ _)
    simp only [List.find?_cons, ← ha]
    cases hp : p a with
    | true =>
      simp only [Option.map_some', Option.some.injEq]
      exact h2 a (List.mem_cons_self _ _) hp
    | false =>
      exact ih (fun b hb => h1 b (List.mem_cons_of_mem _ hb))
        (fun b hb => h2 b (List.mem_cons_of_mem _ hb))

theorem takeWhile_key (key rest : Str) (h : '=' ∉ key) :
    (key ++ '=' :: rest).takeWhile (fun c => c ≠ '=') = key ∧
      (key ++ '=' :: rest).dropWhile (fun c => c ≠ '=') = '=' :: rest := by
  induction key with
  | nil => simp
  | cons a as ih =>
    have ha : a ≠ '=' := fun e => h (by simp [e])
    have has : '=' ∉ as := fun e => h (List.mem_cons_of_mem _ e)
    obtain ⟨i1, i2⟩ := ih has
    simp only [List.cons_append, List.takeWhile_cons, ne_eq, ha, not_false_eq_true,
      decide_True, if_true, List.dropWhile_cons, List.cons.injEq, true_and]
    exact ⟨i1, i2⟩

theorem startswith_key_iff (key tok : Str) (h : '=' ∉ key) :
    startswith tok (key ++ "=".toList) =
      (tok.any (fun c => c = '=') && (tok.takeWhile (fun c => c ≠ '=') == key)) := by
  cases hs : startswith tok (key ++ "=".toList) with
  | true =>
    unfold startswith at hs
    rw [List.isPrefixOf_iff_prefix] at hs
    obtain ⟨rest, rfl⟩ := hs
    have e : key ++ "=".toList ++ rest = key ++ '=' :: rest := by simp
    rw [e, (takeWhile_key key rest h).1]
    simp
  | false =>
    symm
    rw [Bool.and_eq_false_iff]
    by_cases hany : tok.any (fun c => c = '=') = true
    · right
      have hin : '=' ∈ tok := by simpa using hany
      have e := takeWhile_append_dropWhile_eq tok hin
      cases hk : (tok.takeWhile (fun c => c ≠ '=') == key) with
      | false => rfl
      | true =>
        have hk2 : tok.takeWhile (fun c => c ≠ '=') = key := by simpa using hk
        rw [hk2] at e
        have : startswith tok (key ++ "=".toList) = true := by
          unfold startswith
          rw [List.isPrefixOf_iff_prefix]
          refine ⟨(tok.dropWhile (fun c => c ≠ '=')).drop 1, ?_⟩
          rw [List.append_assoc]
          exact e.symm
        rw [this] at hs
        cases hs
    · left
      exact Bool.eq_false_iff.mpr hany

theorem drop_key (key tok : Str) (h : '=' ∉ key)
    (hs : startswith tok (key ++ "=".toList) = true) :
    tok.drop (key ++ "=".toList).length = (tok.dropWhile (fun c => c ≠ '=')).drop 1 := by
  unfold startswith at hs
  rw [List.isPrefixOf_iff_prefix] at hs
  obtain ⟨rest, rfl⟩ := hs
  have e : key ++ "=".toList ++ rest = key ++ '=' :: rest := by simp
  rw [List.drop_left, e, (takeWhile_key key rest h).2]
  rfl

/-- For keys of at most 62 bytes without space and `=`, `get_matching_part` is
the lookup of the specification. -/
theorem get_matching_part_eq_spec (list : Option Str) (key : Str) (hlen : key.length ≤ 62)
    (hsp : ' ' ∉ key) (heq : '=' ∉ key) :
    get_matching_part list key = get_matching_part_spec list key := by
  cases list with
  | none => rfl
  | some full =>
    have hs : snprintf64 (key ++ "=".toList) = key ++ "=".toList := by
      unfold snprintf64
      apply List.take_of_length_le
      simp
      omega
    simp only [get_matching_part, get_matching_part_spec, hs]
    rw [loop_find _ (by simp [hsp]) (by simp) _ _ (le_refl _)]
    exact find_map_congr _ _ _ _ _ (fun tok _ => startswith_key_iff key tok heq)
      (fun tok _ hp => drop_key key tok heq hp)

/-! ## Facts about `FixupDeviceFiles` and `FixupFiles` -/

theorem strstr_some (h n : Str) (i : Nat) (hs : strstr h n = some i) :
    ∃ a b, h = a ++ n ++ b ∧ a.length = i := by
  induction h generalizing i with
  | nil =>
    simp only [strstr] at hs
    split at hs
    · rename_i hn
      cases hs
      exact ⟨[], [], by simp [hn], rfl⟩
    · cases hs
  | cons c cs ih =>
    simp only [strstr] at hs
    split at hs
    · rename_i hp
      cases hs
      unfold startswith at hp
      rw [List.isPrefixOf_iff_prefix] at hp
      obtain ⟨b, hb⟩ := hp
      exact ⟨[], b, by simp [hb], rfl⟩
    · cases hr : strstr cs n with
      | none => rw [hr] at hs; cases hs
      | some j =>
        rw [hr] at hs
        simp only [Option.map_some', Option.some.injEq] at hs
        obtain ⟨a, b, hab, hl⟩ := ih j hr
        exact ⟨c :: a, b, by simp [hab], by simp [hl, hs]⟩

theorem strstr_none (h n : Str) : strstr h n = none ↔ ¬ n <:+: h := by
  induction h with
  | nil =>
    simp only [strstr]
    by_cases hn : n = []
    · simp [hn]
    · simp [hn]
  | cons c cs ih =>
    simp only [strstr]
    by_cases hp : startswith (c :: cs) n = true
    · simp only [hp, if_true, reduceCtorEq, false_iff, not_not]
      unfold startswith at hp
      rw [List.isPrefixOf_iff_prefix] at hp
      exact hp.isInfix
    · simp only [hp, Bool.false_eq_true, if_false, Option.map_eq_none', ih]
      unfold startswith at hp
      rw [List.isPrefixOf_iff_prefix] at hp
      constructor
      · intro h1 h2
        rcases List.infix_cons_iff.mp h2 with h3 | h3
        · exact hp h3
        · exact h1 h3
      · intro h1 h2
        exact h1 (List.infix_cons h2)

theorem snprintf64_device (device : Str) (h : device.length ≤ 56) :
    snprintf64 (device ++ "/device".toList) = device ++ "/device".toList := by
  unfold snprintf64
  apply List.take_of_length_le
  simp
  omega

theorem path_eq_dropDeviceSegment (device path : Str) (h : device.length ≤ 56) :
    FixupDeviceFiles.path device path = some (dropDeviceSegment device path) := by
  unfold FixupDeviceFiles.path dropDeviceSegment
  simp only [snprintf64_device device h]
  cases hs : strstr path (device ++ "/device".toList) with
  | none => rfl
  | some i =>
    obtain ⟨a, b, hab, hl⟩ := strstr_some _ _ _ hs
    have hlen : i + device.length + "/device".toList.length ≤ path.length := by
      rw [hab]
      simp
      omega
    simp only [hlen, if_true]
    rfl

theorem dropDeviceSegment_of_not_infix (device path : Str)
    (h : ¬ (device ++ "/device".toList) <:+: path) : dropDeviceSegment device path = path := by
  unfold dropDeviceSegment
  rw [(strstr_none _ _).mpr h]

theorem dropDeviceSegment_of_infix (device path : Str)
    (h : (device ++ "/device".toList) <:+: path) :
    ∃ a b, path = a ++ device ++ "/device".toList ++ b ∧
      strstr path (device ++ "/device".toList) = some a.length ∧
      dropDeviceSegment device path = a ++ device ++ b := by
  cases hs : strstr path (device ++ "/device".toList) with
  | none => exact absurd h ((strstr_none _ _).mp hs)
  | some i =>
    obtain ⟨a, b, hab, hl⟩ := strstr_some _ _ _ hs
    refine ⟨a, b, by rw [hab]; simp, by rw [hl], ?_⟩
    unfold dropDeviceSegment
    rw [hs]
    simp only
    subst hl
    have e1 : path = (a ++ device) ++ ("/device".toList ++ b) := by rw [hab]; simp
    have e2 : a.length + device.length = (a ++ device).length := by simp
    have e3 : a.length + device.length + 7 = (a ++ device ++ "/device".toList).length := by
      simp
      omega
    have e4 : path = (a ++ device ++ "/device".toList) ++ b := by rw [hab]; simp
    rw [e3, e2]
    conv_lhs => arg 1; rw [e1]
    conv_lhs => arg 2; rw [e4]
    rw [List.take_left, List.drop_left]

theorem entry_eq_dropDeviceSegment (device : Str) (m : Mapping) (h : device.length ≤ 56)
    (hf : m.fan ≠ none) :
    FixupDeviceFiles.entry device m = some (m.dropDeviceSegment device) := by
  cases hfan : m.fan with
  | none => exact absurd hfan hf
  | some fan =>
    simp only [FixupDeviceFiles.entry, path_eq_dropDeviceSegment _ _ h, hfan,
      Mapping.dropDeviceSegment, Option.map_some']

theorem entry_none_fan (device : Str) (m : Mapping) (hf : m.fan = none) :
    FixupDeviceFiles.entry device m = none := by
  simp only [FixupDeviceFiles.entry, hf]
  split
  · rfl
  · split <;> rfl

theorem loop_eq_dropDeviceSegment (device : Str) (ms : List Mapping) (h : device.length ≤ 56)
    (hf : ∀ m ∈ ms, m.fan ≠ none) :
    FixupDeviceFiles.loop device ms = some (ms.map (Mapping.dropDeviceSegment device)) := by
  induction ms with
  | nil => rfl
  | cons m ms ih =>
    simp only [FixupDeviceFiles.loop, entry_eq_dropDeviceSegment device m h
      (hf m (List.mem_cons_self _ _)), ih (fun a ha => hf a (List.mem_cons_of_mem _ ha)),
      List.map_cons]

theorem FixupDeviceFiles_eq (device : Str) (cfg : Config) (h : device.length ≤ 56)
    (hf : ∀ m ∈ cfg.afc, m.fan ≠ none) :
    FixupDeviceFiles device cfg =
      some { cfg with afc := cfg.afc.map (Mapping.dropDeviceSegment device) } := by
  simp only [FixupDeviceFiles, loop_eq_dropDeviceSegment device cfg.afc h hf]

theorem strstr_of_startswith (h n : Str) (hp : startswith h n = true) : strstr h n = some 0 := by
  cases h with
  | nil =>
    unfold startswith at hp
    cases n with
    | nil => rfl
    | cons a as => simp [List.isPrefixOf] at hp
  | cons c cs => simp only [strstr, hp, if_true]

theorem dropDeviceSegment_prefix (device rest : Str) :
    dropDeviceSegment device (device ++ "/device".toList ++ rest) = device ++ rest := by
  have hp : startswith (device ++ "/device".toList ++ rest) (device ++ "/device".toList) =
      true := by
    unfold startswith
    rw [List.isPrefixOf_iff_prefix]
    exact List.prefix_append _ _
  unfold dropDeviceSegment
  rw [strstr_of_startswith _ _ hp]
  simp only [Nat.zero_add]
  have e1 : device ++ "/device".toList ++ rest = device ++ ("/device".toList ++ rest) := by
    simp
  have e3 : device.length + 7 = (device ++ "/device".toList).length := by simp
  rw [e3]
  conv_lhs => arg 1; rw [e1]
  rw [List.take_left, List.drop_left]

theorem dropDeviceSegment_ne (device path : Str)
    (h : (device ++ "/device".toList) <:+: path) : dropDeviceSegment device path ≠ path := by
  obtain ⟨a, b, hab, _, hd⟩ := dropDeviceSegment_of_infix device path h
  rw [hd]
  intro e
  have := congrArg List.length e
  rw [hab] at this
  simp at this
  omega

theorem FixupFiles_loop_unchanged {σ : Type} (io : Sysfs σ) (s : σ) (toks : List Str)
    (cfg : Config)
    (h : ∀ tok ∈ toks, '=' ∈ tok ∧
      io.access s (snprintf64 (tok.takeWhile (fun c => c ≠ '=') ++ "/name".toList))
        Mode.F_OK = false) :
    FixupFiles.loop io s toks cfg = some cfg := by
  induction toks with
  | nil => rfl
  | cons tok rest ih =>
    obtain ⟨h1, h2⟩ := h tok (List.mem_cons_self _ _)
    have hall : (tok.all fun c => decide (c ≠ '=')) = false := by
      rw [Bool.eq_false_iff]
      intro hh
      rw [List.all_eq_true] at hh
      have := hh '=' h1
      simp at this
    simp only [FixupFiles.loop, hall, Bool.false_eq_true, if_false, h2]
    exact ih (fun t ht => h t (List.mem_cons_of_mem _ ht))

theorem snprintf64_name (device : Str) (h : device.length ≤ 56) :
    snprintf64 (device ++ "/name".toList) = device ++ "/name".toList := by
  unfold snprintf64
  apply List.take_of_length_le
  have h5 : "/name".toList.length = 5 := rfl
  rw [List.length_append, h5]
  omega

theorem dropDeviceSegment_fan (device : Str) (ms : List Mapping)
    (hf : ∀ m ∈ ms, m.fan ≠ none) :
    ∀ m ∈ ms.map (Mapping.dropDeviceSegment device), m.fan ≠ none := by
  intro m hm
  obtain ⟨m0, hm0, rfl⟩ := List.mem_map.mp hm
  have := hf m0 hm0
  cases hfan : m0.fan with
  | none => exact absurd hfan this
  | some fan => simp [Mapping.dropDeviceSegment, hfan]

theorem FixupFiles_loop_eq {σ : Type} (io : Sysfs σ) (s : σ) (toks : List Str) (cfg : Config)
    (heq : ∀ tok ∈ toks, '=' ∈ tok)
    (hlen : ∀ tok ∈ toks, (tok.takeWhile (fun c => c ≠ '=')).length ≤ 56)
    (hf : ∀ m ∈ cfg.afc, m.fan ≠ none) :
    FixupFiles.loop io s toks cfg = some { cfg with afc := fixupHints io s toks cfg.afc } := by
  induction toks generalizing cfg with
  | nil => rfl
  | cons tok rest ih =>
    have h1 := heq tok (List.mem_cons_self _ _)
    have h2 := hlen tok (List.mem_cons_self _ _)
    have hall : (tok.all fun c => decide (c ≠ '=')) = false := by
      rw [Bool.eq_false_iff]
      intro hh
      rw [List.all_eq_true] at hh
      have := hh '=' h1
      simp at this
    simp only [FixupFiles.loop, hall, Bool.false_eq_true, if_false, snprintf64_name _ h2,
      fixupHints]
    by_cases ha : io.access s (tok.takeWhile (fun c => c ≠ '=') ++ "/name".toList)
        Mode.F_OK = true
    · simp only [ha, if_true, FixupDeviceFiles_eq _ cfg h2 hf]
      rw [ih _ (fun t ht => heq t (List.mem_cons_of_mem _ ht))
        (fun t ht => hlen t (List.mem_cons_of_mem _ ht))
        (dropDeviceSegment_fan _ _ hf)]
    · simp only [ha, Bool.false_eq_true, if_false]
      exact ih cfg (fun t ht => heq t (List.mem_cons_of_mem _ ht))
        (fun t ht => hlen t (List.mem_cons_of_mem _ ht)) hf

theorem FixupFiles_eq {σ : Type} (io : Sysfs σ) (s : σ) (cfg : Config) (devpath : Str)
    (hd : cfg.devpath = some devpath) (hne : strtokAll devpath ≠ [])
    (heq : ∀ tok ∈ strtokAll devpath, '=' ∈ tok)
    (hlen : ∀ tok ∈ strtokAll devpath, (tok.takeWhile (fun c => c ≠ '=')).length ≤ 56)
    (hf : ∀ m ∈ cfg.afc, m.fan ≠ none) :
    FixupFiles io s cfg =
      some { cfg with afc := fixupHints io s (strtokAll devpath) cfg.afc } := by
  simp only [FixupFiles, hd]
  cases ht : strtokAll devpath with
  | nil => exact absurd ht hne
  | cons ptr rest =>
    simp only
    rw [← ht]
    have h := FixupFiles_loop_eq io s _ cfg heq hlen hf
    rw [hd] at h
    exact h

/-! ## Properties of the program -/

/-- C1 (counterexample): the text `exWideText` (`MINTEMP=0`, `MAXTEMP=2000000`,
`MINSTOP=100`, `MAXPWM` at its default 255) is loaded, the reading 1500000000
lies between `minTemp*1000` and `maxTemp*1000`, and the loop body of
`UpdateFanSpeeds` writes 100 to the pwm file, whereas the formula over the
integers gives 216: the product `(tval - mint) * (maxpwm - minso)` does not fit
a 32-bit `int`. -/
theorem C1_overflow_counterexample :
    LoadConfig (some exWideText) = .returned 0 ⟨5, none, none, [exWide]⟩ ∧
    rfileValue ((fixedStore exScorching []).read () exWide.temp) = 1500000000 ∧
    exWide.mintemp * 1000 < 1500000000 ∧ 1500000000 < exWide.maxtemp * 1000 ∧
    (UpdateFanSpeeds.body (fixedStore exScorching []) ⟨5, none, none, [exWide]⟩ exWide ()).ev =
      [Event.rfile exWide.temp, Event.rfile exWide.pwm, Event.wfile exWide.pwm 100] ∧
    interpolateExact exWide 1500000000 = 216 := by
  decide

/-- C1 (amended): for a reading `t` with `minTemp*1000 < t < maxTemp*1000` (all
reads succeeding) at which no operation of the computation leaves the range of
a 32-bit `int`, the last value that the loop body of `UpdateFanSpeeds` passes
to `wfile` for the pwm file (after its reads and, for a stopped fan, the start
with `minstart`) is
`(t - minTemp*1000) * (maxPwm - minStop) / (maxTemp*1000 - minTemp*1000) + minStop`
over the integers with truncating division. -/
theorem C1_interpolated_target {σ : Type} (io : Sysfs σ) (cfg : Config) (m : Mapping) (s : σ)
    (hr : readsOk io m s)
    (hno : NoOverflow m (rfileValue (io.read s m.temp)))
    (h1 : m.mintemp * 1000 < rfileValue (io.read s m.temp))
    (h2 : rfileValue (io.read s m.temp) < m.maxtemp * 1000) :
    ∃ kick s1, (kick = [] ∨ kick = [Event.wfile m.pwm m.minstart, Event.usleep 1000000]) ∧
      (UpdateFanSpeeds.body io cfg m s).ev =
        readCalls m ++ kick ++
          [Event.wfile m.pwm (interpolateExact m (rfileValue (io.read s m.temp)))] ++
          afterWrite io cfg m.pwm s1 := by
  rw [← mint_of_inInt32 m hno.1] at h1
  rw [← maxt_of_inInt32 m hno.2.1] at h2
  rw [← interpolate_eq_exact m _ hno]
  by_cases hs : stopped io m s
  · refine ⟨[Event.wfile m.pwm m.minstart, Event.usleep 1000000],
      (wfile io m.pwm m.minstart s).st, Or.inr rfl, ?_⟩
    rw [body_stalled io cfg m s hr h1 h2 hs]
    simp
  · refine ⟨[], s, Or.inl rfl, ?_⟩
    rw [body_plain io cfg m s hr (fun h => hs h.2.2)]
    simp [pwmval, not_le.mpr h1, not_le.mpr h2]

/-- Witness of C1: at `minTemp=40, maxTemp=70, minStop=100, maxPwm=200` and a
reading of 55000 nothing overflows and the target is 150. -/
theorem C1_interpolated_target_witness :
    rfileValue ((fixedStore exWarm []).read () exMapping.temp) = 55000 ∧
    interpolateExact exMapping 55000 = 150 ∧
    ∃ kick s1,
      (kick = [] ∨ kick = [Event.wfile exMapping.pwm exMapping.minstart, Event.usleep 1000000]) ∧
      (UpdateFanSpeeds.body (fixedStore exWarm []) exConfig exMapping ()).ev =
        readCalls exMapping ++ kick ++ [Event.wfile exMapping.pwm
          (interpolateExact exMapping
            (rfileValue ((fixedStore exWarm []).read () exMapping.temp)))] ++
        afterWrite (fixedStore exWarm []) exConfig exMapping.pwm s1 :=
  ⟨by decide, by decide,
    C1_interpolated_target (fixedStore exWarm []) exConfig exMapping ()
      ⟨by decide, by decide, fun fan h => by cases h⟩ (by decide) (by decide) (by decide)⟩

set_option maxRecDepth 4096 in
/-- C2 (counterexample): the text `exHugeText` (`MINTEMP=3000000`,
`MAXTEMP=3000001`, `MINPWM=30`) is loaded, the reading 50000 is at most
`minTemp*1000`, and the loop body of `UpdateFanSpeeds` writes `maxpwm = 255` to
the pwm file, not `minpwm = 30`: the products `mintemp * 1000` and
`maxtemp * 1000` do not fit a 32-bit `int`. -/
theorem C2_wrapped_threshold_counterexample :
    LoadConfig (some exHugeText) = .returned 0 ⟨5, none, none, [exHuge]⟩ ∧
    rfileValue ((fixedStore exMild []).read () exHuge.temp) = 50000 ∧
    50000 ≤ exHuge.mintemp * 1000 ∧
    (UpdateFanSpeeds.body (fixedStore exMild []) ⟨5, none, none, [exHuge]⟩ exHuge ()).ev =
      [Event.rfile exHuge.temp, Event.rfile exHuge.pwm, Event.wfile exHuge.pwm 255] ∧
    exHuge.minpwm = 30 := by
  decide

/-- C2 (amended): for an entry whose products `minTemp*1000` and `maxTemp*1000`
fit a 32-bit `int`, with all reads succeeding, a temperature
`t <= minTemp*1000` makes the loop body of `UpdateFanSpeeds` write exactly
`minpwm` to the pwm file, and a temperature `t >= maxTemp*1000` (with
`t > minTemp*1000`) exactly `maxpwm`; it is the only write of the body,
whatever `minstop`, `minstart`, the pwm value read and the fan value read are. -/
theorem C2_clamped_targets {σ : Type} (io : Sysfs σ) (cfg : Config) (m : Mapping) (s : σ)
    (hr : readsOk io m s)
    (hmin : inInt32 (m.mintemp * 1000)) (hmax : inInt32 (m.maxtemp * 1000)) :
    (rfileValue (io.read s m.temp) ≤ m.mintemp * 1000 →
      (UpdateFanSpeeds.body io cfg m s).ev =
        readCalls m ++ [Event.wfile m.pwm m.minpwm] ++ afterWrite io cfg m.pwm s) ∧
    (m.mintemp * 1000 < rfileValue (io.read s m.temp) →
      m.maxtemp * 1000 ≤ rfileValue (io.read s m.temp) →
      (UpdateFanSpeeds.body io cfg m s).ev =
        readCalls m ++ [Event.wfile m.pwm m.maxpwm] ++ afterWrite io cfg m.pwm s) := by
  rw [← mint_of_inInt32 m hmin, ← maxt_of_inInt32 m hmax]
  constructor
  · intro h
    rw [body_plain io cfg m s hr (fun hh => absurd hh.1 (not_lt.mpr h))]
    simp [pwmval, h]
  · intro h1 h2
    rw [body_plain io cfg m s hr (fun hh => absurd hh.2.1 (not_lt.mpr h2))]
    simp [pwmval, not_le.mpr h1, h2]

/-- Witness of C2: at 30 °C the write is `minpwm = 0`, at 85 °C it is
`maxpwm = 200`, although the pwm and fan values read are 0. -/
theorem C2_clamped_targets_witness :
    (UpdateFanSpeeds.body (fixedStore exCold []) exConfig exMappingFan ()).ev =
      readCalls exMappingFan ++ [Event.wfile exMappingFan.pwm 0] ++
        afterWrite (fixedStore exCold []) exConfig exMappingFan.pwm () ∧
    (UpdateFanSpeeds.body (fixedStore exHot []) exConfig exMappingFan ()).ev =
      readCalls exMappingFan ++ [Event.wfile exMappingFan.pwm 200] ++
        afterWrite (fixedStore exHot []) exConfig exMappingFan.pwm () :=
  ⟨(C2_clamped_targets (fixedStore exCold []) exConfig exMappingFan ()
      ⟨by decide, by decide, fun fan h => by cases h; decide⟩ (by decide) (by decide)).1
        (by decide),
    (C2_clamped_targets (fixedStore exHot []) exConfig exMappingFan ()
      ⟨by decide, by decide, fun fan h => by cases h; decide⟩ (by decide) (by decide)).2
        (by decide) (by decide)⟩

/-- C6: `restorefans(status)` runs `pwmdisable` once for every configured
channel, in the order of the configuration and whatever the earlier calls
returned, then removes the pid file and exits with `status`; nothing that is
sequenced after it is executed. -/
theorem C6_restorefans {σ : Type} (io : Sysfs σ) (cfg : Config) (status : Int) (s : σ) :
    ((restorefans io cfg status : Proc σ Unit) s).res = .error status ∧
    (∃ segs : List (List Event),
      ((restorefans io cfg status : Proc σ Unit) s).ev =
        segs.flatten ++ [Event.unlink PIDFILE, Event.exit status] ∧
      List.Forall₂ (fun m seg => ∃ s1, seg = (pwmdisable io m.pwm s1).ev) cfg.afc segs) ∧
    (∀ k : Unit → Proc σ Unit,
      ((restorefans io cfg status : Proc σ Unit) >>= k) s =
        (restorefans io cfg status : Proc σ Unit) s) := by
  refine ⟨by rw [restorefans_run], ?_, ?_⟩
  · obtain ⟨segs, h1, h2⟩ := restorefans_loop_ev io cfg.afc s
    exact ⟨segs, by rw [restorefans_run, h1], h2⟩
  · intro k
    rw [bind_error _ _ _ status (by rw [restorefans_run])]
    rw [restorefans_run]

set_option maxRecDepth 100000 in
/-- C7 (the code at the failing input): when `LoadConfig` succeeds, the entries
of the configuration are, in order, one per token of `FCTEMPS` (the tokens that
`strtok` splits at spaces), each token being `pwm=temp` split at its first `=`;
an entry for whose key the lookup in `FCFANS` / `MINPWM` / `MAXPWM` finds
nothing has `fan = NULL` / `minpwm = 0` / `maxpwm = 255`, and for keys of at
most 62 bytes the lookup finds nothing whenever the list is absent or has no
token starting with `key=`; the example text yields the single entry with 20,
60, 150, 100 and the defaults 0, 255 and no fan. For the 64-byte keys of
`exLongKeys` the defaults fail: the text is loaded, and the channel `exKey1`,
which has no entry in `FCFANS` and `MAXPWM`, gets the fan `2=fan2` and
`maxpwm = 2` from the entries of `exKey2`. -/
theorem C7_mappings_from_fctemps :
    (∀ text cfg, LoadConfig (some text) = .returned 0 cfg →
      ∃ fctemps, setting "FCTEMPS=".toList text = some fctemps ∧
        List.Forall₂ (fun tok m => tok = m.pwm ++ '=' :: m.temp ∧ '=' ∉ m.pwm)
          (strtokAll fctemps) cfg.afc ∧
        ∀ m ∈ cfg.afc,
          (get_matching_part (setting "FCFANS=".toList text) m.pwm = none → m.fan = none) ∧
          (get_matching_part (setting "MINPWM=".toList text) m.pwm = none → m.minpwm = 0) ∧
          (get_matching_part (setting "MAXPWM=".toList text) m.pwm = none → m.maxpwm = 255) ∧
          (m.pwm.length ≤ 62 →
            (noEntry (setting "FCFANS=".toList text) m.pwm → m.fan = none) ∧
            (noEntry (setting "MINPWM=".toList text) m.pwm → m.minpwm = 0) ∧
            (noEntry (setting "MAXPWM=".toList text) m.pwm → m.maxpwm = 255))) ∧
    LoadConfig (some exText) = .returned 0 ⟨5, none, none,
      [⟨"pwm1".toList, "temp1".toList, none, 20, 60, 150, 100, 0, 255⟩]⟩ ∧
    (exKey1.length = 64 ∧
      setting "FCTEMPS=".toList exLongKeys =
        some (exKey1 ++ "=temp1 ".toList ++ exKey2 ++ "=temp2".toList) ∧
      setting "FCFANS=".toList exLongKeys = some (exKey2 ++ "=fan2".toList) ∧
      setting "MAXPWM=".toList exLongKeys = some (exKey2 ++ "=200".toList) ∧
      noEntry (setting "FCFANS=".toList exLongKeys) exKey1 ∧
      noEntry (setting "MAXPWM=".toList exLongKeys) exKey1 ∧
      LoadConfig (some exLongKeys) = .returned 0 ⟨5, none, none,
        [⟨exKey1, "temp1".toList, some "2=fan2".toList, 1, 2, 1, 1, 0, 2⟩,
         ⟨exKey2, "temp2".toList, some "2=fan2".toList, 1, 2, 1, 1, 0, 2⟩]⟩) := by
  have hfans : setting "FCFANS=".toList exLongKeys = some (exKey2 ++ "=fan2".toList) := by
    decide
  have hmax : setting "MAXPWM=".toList exLongKeys = some (exKey2 ++ "=200".toList) := by
    decide
  refine ⟨?_, by decide, by decide, by decide, hfans, hmax, ?_, ?_, by decide⟩
  · intro text cfg h
    obtain ⟨text2, fctemps, e1, e2, _, hcfg, _, heq⟩ := LoadConfig_ok _ _ h
    cases e1
    refine ⟨fctemps, by rw [← read_fctemps, e2], ?_, ?_⟩
    · rw [hcfg]
      simp only
      generalize strtokAll fctemps = toks at heq
      induction toks with
      | nil => exact List.Forall₂.nil
      | cons tok toks ih =>
        refine List.Forall₂.cons ⟨?_, ?_⟩ (ih (fun t ht => heq t (List.mem_cons_of_mem _ ht)))
        · exact takeWhile_append_dropWhile_eq tok (heq tok (List.mem_cons_self _ _))
        · exact not_mem_takeWhile tok '='
    · intro m hm
      rw [hcfg] at hm
      obtain ⟨tok, htok, rfl⟩ := List.mem_map.mp hm
      have hfan : get_matching_part (setting "FCFANS=".toList text)
          (tok.takeWhile (fun c => c ≠ '=')) = none →
          (LoadConfig.filled (LoadConfig.read text) tok).fan = none := by
        intro h0
        simp only [LoadConfig.filled, LoadConfig.keyed, read_fcfans]
        cases hs : setting "FCFANS=".toList text with
        | none => rfl
        | some l => rw [hs] at h0; exact h0
      have hmin : get_matching_part (setting "MINPWM=".toList text)
          (tok.takeWhile (fun c => c ≠ '=')) = none →
          (LoadConfig.filled (LoadConfig.read text) tok).minpwm = 0 := by
        intro h0
        simp only [LoadConfig.filled, LoadConfig.keyed, read_minpwm, h0]
      have hmax : get_matching_part (setting "MAXPWM=".toList text)
          (tok.takeWhile (fun c => c ≠ '=')) = none →
          (LoadConfig.filled (LoadConfig.read text) tok).maxpwm = 255 := by
        intro h0
        simp only [LoadConfig.filled, LoadConfig.keyed, read_maxpwm, h0]
      have hsp : ' ' ∉ tok.takeWhile (fun c => c ≠ '=') := fun hin =>
        mem_strtokAll fctemps tok htok ((List.takeWhile_sublist _).subset hin)
      refine ⟨hfan, hmin, hmax, fun hlen => ⟨fun hn => hfan ?_, fun hn => hmin ?_,
        fun hn => hmax ?_⟩⟩
      · exact get_matching_part_none _ _ hlen hsp hn
      · exact get_matching_part_none _ _ hlen hsp hn
      · exact get_matching_part_none _ _ hlen hsp hn
  · intro full hfull
    rw [hfans] at hfull
    cases hfull
    decide
  · intro full hfull
    rw [hmax] at hfull
    cases hfull
    decide

/-- Witness of C7: the example text. -/
theorem C7_mappings_from_fctemps_witness :
    ∃ fctemps, setting "FCTEMPS=".toList exText = some fctemps ∧
      List.Forall₂ (fun tok m => tok = m.pwm ++ '=' :: m.temp ∧ '=' ∉ m.pwm)
        (strtokAll fctemps) exLoaded.afc ∧
      ∀ m ∈ exLoaded.afc,
        (get_matching_part (setting "FCFANS=".toList exText) m.pwm = none → m.fan = none) ∧
        (get_matching_part (setting "MINPWM=".toList exText) m.pwm = none → m.minpwm = 0) ∧
        (get_matching_part (setting "MAXPWM=".toList exText) m.pwm = none → m.maxpwm = 255) ∧
        (m.pwm.length ≤ 62 →
          (noEntry (setting "FCFANS=".toList exText) m.pwm → m.fan = none) ∧
          (noEntry (setting "MINPWM=".toList exText) m.pwm → m.minpwm = 0) ∧
          (noEntry (setting "MAXPWM=".toList exText) m.pwm → m.maxpwm = 255)) :=
  C7_mappings_from_fctemps.1 exText exLoaded (by decide)

/-- C9 (the code at the failing input): the value returned by `pwmenable`
depends only on the write to the enable file; on a store without enable file
whose pwm file cannot be opened for writing, `wfile(name, 255)` fails,
`pwmenable` returns 0 and the enabling loop of `main` ends without calling
`restorefans`. -/
theorem C9_pwmenable_ignores_pwm_write :
    (∀ (σ : Type) (io : Sysfs σ) (name : Str) (s : σ),
      (pwmenable io name s).res =
        .ok (if io.access s (enableName name) Mode.F_OK = true ∧
          io.openW s (enableName name) = false then -1 else 0)) ∧
    (wfile (fixedStore exWarm [exMapping.pwm]) exMapping.pwm 255 ()).res = .ok (-1) ∧
    (pwmenable (fixedStore exWarm [exMapping.pwm]) exMapping.pwm ()).res = .ok 0 ∧
    (pwmenable (fixedStore exWarm [exMapping.pwm]) exMapping.pwm ()).ev =
      [Event.access "hwmon0/pwm1_enable".toList Mode.F_OK,
        Event.wfile "hwmon0/pwm1".toList 255] ∧
    (main.enable (fixedStore exWarm [exMapping.pwm]) exConfig exConfig.afc ()).res = .ok () := by
  refine ⟨?_, by decide, by decide, by decide, by decide⟩
  intro σ io name s
  by_cases h : io.access s (enableName name) Mode.F_OK = true
  · by_cases hw : io.openW s (enableName name) = true
    · simp [pwmenable, run_bind, Proc.bind, access_run, wfile_res, run_pure, run_ite, h, hw]
    · simp [pwmenable, run_bind, Proc.bind, access_run, wfile_res, run_pure, run_ite, h, hw]
  · simp [pwmenable, run_bind, Proc.bind, access_run, wfile_res, run_pure, run_ite, h]

/-- C10 (counterexample): the temperature attribute exists and holds `-1`, a
parseable decimal integer, and the pwm attribute holds `120`; yet `rfile`
yields the failure value and the tick calls `restorefans(1)`: it exits with
status 1 after the first read, without a write of `UpdateFanSpeeds` itself. -/
theorem C10_minus_one_counterexample :
    (fixedStore exMinusOne []).read () exMapping.temp = some "-1\n".toList ∧
    strtol "-1\n".toList = some (-1) ∧
    rfileValue (some "-1\n".toList) = -1 ∧
    rfileValue (some "4294967295\n".toList) = -1 ∧
    (fixedStore exMinusOne []).read () exMapping.pwm = some "120\n".toList ∧
    strtol "120\n".toList = some 120 ∧
    exMapping.fan = none ∧
    (UpdateFanSpeeds.body (fixedStore exMinusOne []) exConfig exMapping ()).res = .error 1 ∧
    (UpdateFanSpeeds.body (fixedStore exMinusOne []) exConfig exMapping ()).ev =
      [Event.rfile exMapping.temp] ++
        ((restorefans (fixedStore exMinusOne []) exConfig 1 : Proc Unit Unit) ()).ev := by
  decide

/-- C10 (amended): `rfile` yields the integer that `strtol` finds at the start
of the first 12 bytes of the attribute, reduced to 32 bits, and -1 when the
attribute cannot be opened or holds no such integer; so it yields `v` for
every leading integer `v` in the range of `int`, and it yields the failure
value -1 exactly when the attribute is absent, holds no parseable integer, or
holds an integer that reduces to -1. A tick of `UpdateFanSpeeds` reaches its
write of the target when none of its reads (temperature, pwm, configured fan)
yields -1, and otherwise calls `restorefans(1)` right after the failing read. -/
theorem C10_read_failure {σ : Type} (io : Sysfs σ) (cfg : Config) (m : Mapping) (s : σ) :
    (∀ bytes v, strtol (bytes.take 12) = some v → inInt32 v → rfileValue (some bytes) = v) ∧
    (∀ content, rfileValue content = -1 ↔
      content = none ∨ ∃ bytes, content = some bytes ∧
        (strtol (bytes.take 12) = none ∨
          ∃ v, strtol (bytes.take 12) = some v ∧ wrap32 v = -1)) ∧
    (readsOk io m s →
      ∃ kick s1, (kick = [] ∨ kick = [Event.wfile m.pwm m.minstart, Event.usleep 1000000]) ∧
        (UpdateFanSpeeds.body io cfg m s).ev =
          readCalls m ++ kick ++
            [Event.wfile m.pwm (pwmval m (rfileValue (io.read s m.temp)))] ++
            afterWrite io cfg m.pwm s1) ∧
    (¬ readsOk io m s →
      (UpdateFanSpeeds.body io cfg m s).res = .error 1 ∧
      ∃ pre, pre <+: readCalls m ∧ pre ≠ [] ∧
        (UpdateFanSpeeds.body io cfg m s).ev =
          pre ++ ((restorefans io cfg 1 : Proc σ Unit) s).ev) := by
  refine ⟨?_, rfileValue_eq_neg_one, ?_, body_fatal io cfg m s⟩
  · intro bytes v hv hin
    simp [rfileValue, hv, wrap32_of_inInt32 hin]
  · intro hr
    by_cases hs : mint m < rfileValue (io.read s m.temp) ∧
        rfileValue (io.read s m.temp) < maxt m ∧ stopped io m s
    · refine ⟨[Event.wfile m.pwm m.minstart, Event.usleep 1000000],
        (wfile io m.pwm m.minstart s).st, Or.inr rfl, ?_⟩
      rw [body_stalled io cfg m s hr hs.1 hs.2.1 hs.2.2]
      simp [pwmval, not_le.mpr hs.1, not_le.mpr hs.2.1]
    · refine ⟨[], s, Or.inl rfl, ?_⟩
      rw [body_plain io cfg m s hr hs]
      simp

/-- Witness of C10: with parseable values other than -1 in all attributes the
tick reaches its write; with `-1` in the temperature attribute it exits. -/
theorem C10_read_failure_witness :
    (∃ kick s1,
      (kick = [] ∨ kick = [Event.wfile exMapping.pwm exMapping.minstart, Event.usleep 1000000]) ∧
      (UpdateFanSpeeds.body (fixedStore exWarm []) exConfig exMapping ()).ev =
        readCalls exMapping ++ kick ++ [Event.wfile exMapping.pwm
          (pwmval exMapping (rfileValue ((fixedStore exWarm []).read () exMapping.temp)))] ++
        afterWrite (fixedStore exWarm []) exConfig exMapping.pwm s1) ∧
    (UpdateFanSpeeds.body (fixedStore exMinusOne []) exConfig exMapping ()).res = .error 1 :=
  ⟨(C10_read_failure (fixedStore exWarm []) exConfig exMapping ()).2.2.1
      ⟨by decide, by decide, fun fan h => by cases h⟩,
    ((C10_read_failure (fixedStore exMinusOne []) exConfig exMapping ()).2.2.2
      (fun h => h.1 (by decide))).1⟩

/-- C11 (the code at the failing input): `CheckFiles` makes its three `access`
calls for every configured channel, whatever the earlier calls returned, and
returns 0 exactly when for every channel the pwm file is writable, the temp
file is readable and a fan path is set and readable. For a channel without fan
input it calls `access` with the NULL pointer, which fails: the channel
`exMapping` (no fan, pwm writable, temp readable) makes `CheckFiles` return -1. -/
theorem C11_CheckFiles_needs_fan :
    (∀ (σ : Type) (io : Sysfs σ) (cfg : Config) (s : σ),
      (CheckFiles io cfg s).ev = (cfg.afc.map CheckFiles.calls).flatten ∧
      ((CheckFiles io cfg s).res = .ok 0 ∨ (CheckFiles io cfg s).res = .ok (-1)) ∧
      ((CheckFiles io cfg s).res = .ok 0 ↔
        ∀ m ∈ cfg.afc, io.access s m.pwm Mode.W_OK = true ∧
          io.access s m.temp Mode.R_OK = true ∧
          ∃ fan, m.fan = some fan ∧ io.access s fan Mode.R_OK = true)) ∧
    exConfig.afc = [exMapping] ∧ exMapping.fan = none ∧
    (fixedStore exWarm []).access () exMapping.pwm Mode.W_OK = true ∧
    (fixedStore exWarm []).access () exMapping.temp Mode.R_OK = true ∧
    (CheckFiles (fixedStore exWarm []) exConfig ()).res = .ok (-1) ∧
    (CheckFiles (fixedStore exWarm []) exConfig ()).ev =
      [Event.access exMapping.pwm Mode.W_OK, Event.access exMapping.temp Mode.R_OK,
        Event.accessNull Mode.R_OK] := by
  refine ⟨?_, by decide, by decide, by decide, by decide, by decide, by decide⟩
  intro σ io cfg s
  rw [CheckFiles_run]
  refine ⟨rfl, ?_, ?_⟩
  · by_cases h : cfg.afc.all (CheckFiles.passes io s) = true <;> simp [h]
  · by_cases h : cfg.afc.all (CheckFiles.passes io s) = true
    · simp only [h, if_true, true_iff]
      intro m hm
      exact (CheckFiles_passes_iff io s m).mp (List.all_eq_true.mp h m hm)
    · simp only [h]
      constructor
      · intro hh; simp at hh
      · intro hh
        exact absurd (List.all_eq_true.mpr
          (fun m hm => (CheckFiles_passes_iff io s m).mpr (hh m hm))) h

/-- C12 (counterexample): `main` installs `sighandler` for SIGINT and SIGHUP,
and for each of them the handler makes the process exit with code 1, not 0. -/
theorem C12_interrupt_counterexample :
    SIGINT ∈ main.signals ∧ SIGHUP ∈ main.signals ∧
    (sighandler (fixedStore exWarm []) exConfig SIGINT ()).res = .error 1 ∧
    (sighandler (fixedStore exWarm []) exConfig SIGHUP ()).res = .error 1 := by
  decide

/-- C12 (amended): `sighandler` is installed for SIGQUIT, SIGTERM, SIGHUP and
SIGINT; for SIGQUIT and SIGTERM it calls `restorefans(0)` and the process exits
with code 0, for SIGHUP and SIGINT it calls `restorefans(1)` and the process
exits with code 1. -/
theorem C12_signal_exit_codes {σ : Type} (io : Sysfs σ) (cfg : Config) (s : σ) :
    main.signals = [SIGQUIT, SIGTERM, SIGHUP, SIGINT] ∧
    (sighandler io cfg SIGQUIT s = (restorefans io cfg 0 : Proc σ Unit) s ∧
      (sighandler io cfg SIGQUIT s).res = .error 0) ∧
    (sighandler io cfg SIGTERM s = (restorefans io cfg 0 : Proc σ Unit) s ∧
      (sighandler io cfg SIGTERM s).res = .error 0) ∧
    (sighandler io cfg SIGHUP s = (restorefans io cfg 1 : Proc σ Unit) s ∧
      (sighandler io cfg SIGHUP s).res = .error 1) ∧
    (sighandler io cfg SIGINT s = (restorefans io cfg 1 : Proc σ Unit) s ∧
      (sighandler io cfg SIGINT s).res = .error 1) := by
  have hq : sighandler io cfg SIGQUIT s = (restorefans io cfg 0 : Proc σ Unit) s := rfl
  have ht : sighandler io cfg SIGTERM s = (restorefans io cfg 0 : Proc σ Unit) s := rfl
  have hh : sighandler io cfg SIGHUP s = (restorefans io cfg 1 : Proc σ Unit) s := rfl
  have hi : sighandler io cfg SIGINT s = (restorefans io cfg 1 : Proc σ Unit) s := rfl
  refine ⟨rfl, ⟨hq, ?_⟩, ⟨ht, ?_⟩, ⟨hh, ?_⟩, ⟨hi, ?_⟩⟩
  · rw [hq, restorefans_run]
  · rw [ht, restorefans_run]
  · rw [hh, restorefans_run]
  · rw [hi, restorefans_run]

/-- C13 (counterexample): in `exMissingEntries` the lists `MAXTEMP`, `MINSTART`
and `MINSTOP` are present but hold an entry for `pwm2` only; the channel `pwm1`
of `FCTEMPS` is loaded all the same, with the value 0 in place of the three
missing entries. -/
theorem C13_missing_entries_counterexample :
    setting "FCTEMPS=".toList exMissingEntries = some "pwm1=temp1".toList ∧
    setting "MAXTEMP=".toList exMissingEntries = some "pwm2=60".toList ∧
    setting "MINSTART=".toList exMissingEntries = some "pwm2=150".toList ∧
    setting "MINSTOP=".toList exMissingEntries = some "pwm2=100".toList ∧
    LoadConfig (some exMissingEntries) = .returned 0 ⟨5, none, none,
      [⟨"pwm1".toList, "temp1".toList, none, -10, 0, 0, 0, 0, 255⟩]⟩ := by
  decide

/-- C13 (amended): a successful `LoadConfig` has found each of the lines
`MINTEMP=`, `MAXTEMP=`, `MINSTART=` and `MINSTOP=`, but not necessarily an
entry for every key of `FCTEMPS`: each value of an entry is `atoi` of what the
lookup of its key finds, and 0 when the lookup finds nothing, which for keys of
at most 62 bytes is the case when no token of the list starts with `key=`.
And the text is loaded with these values whenever they pass the checks: with
a positive `INTERVAL`, the four lines present, one to 32 tokens in `FCTEMPS`,
each with a `=`, and no `+` in a fan value found, `LoadConfig` returns 0 and
the entries are the ones filled in for the tokens, provided each satisfies the
invariants. -/
theorem C13_missing_entry_is_zero :
    (∀ text cfg, LoadConfig (some text) = .returned 0 cfg →
      (setting "MINTEMP=".toList text ≠ none ∧ setting "MAXTEMP=".toList text ≠ none ∧
        setting "MINSTART=".toList text ≠ none ∧ setting "MINSTOP=".toList text ≠ none) ∧
      ∀ m ∈ cfg.afc,
        (m.mintemp = atoi_and_free (get_matching_part (setting "MINTEMP=".toList text) m.pwm) ∧
          m.maxtemp =
            atoi_and_free (get_matching_part (setting "MAXTEMP=".toList text) m.pwm) ∧
          m.minstart =
            atoi_and_free (get_matching_part (setting "MINSTART=".toList text) m.pwm) ∧
          m.minstop =
            atoi_and_free (get_matching_part (setting "MINSTOP=".toList text) m.pwm)) ∧
        (m.pwm.length ≤ 62 →
          (noEntry (setting "MINTEMP=".toList text) m.pwm → m.mintemp = 0) ∧
          (noEntry (setting "MAXTEMP=".toList text) m.pwm → m.maxtemp = 0) ∧
          (noEntry (setting "MINSTART=".toList text) m.pwm → m.minstart = 0) ∧
          (noEntry (setting "MINSTOP=".toList text) m.pwm → m.minstop = 0))) ∧
    (∀ text fctemps interval,
      setting "FCTEMPS=".toList text = some fctemps →
      setting "INTERVAL=".toList text = some interval → 0 < atoi interval →
      setting "MINTEMP=".toList text ≠ none → setting "MAXTEMP=".toList text ≠ none →
      setting "MINSTART=".toList text ≠ none → setting "MINSTOP=".toList text ≠ none →
      strtokAll fctemps ≠ [] → (strtokAll fctemps).length ≤ MAXMAPPINGS →
      (∀ tok ∈ strtokAll fctemps, '=' ∈ tok) →
      (∀ tok ∈ strtokAll fctemps, ∀ fan,
        get_matching_part (setting "FCFANS=".toList text)
          (tok.takeWhile (fun c => c ≠ '=')) = some fan → '+' ∉ fan) →
      (∀ tok ∈ strtokAll fctemps, (LoadConfig.filled (LoadConfig.read text) tok).valid) →
      LoadConfig (some text) = .returned 0 ⟨atoi interval, (LoadConfig.read text).devpath,
        (LoadConfig.read text).devname,
        (strtokAll fctemps).map (LoadConfig.filled (LoadConfig.read text))⟩) := by
  refine ⟨?_, fun text fctemps interval hf hi hpos h1 h2 h3 h4 hne hlen heq hp hv =>
    LoadConfig_complete text fctemps interval hf hi hpos h1 h2 h3 h4 hne hlen heq hp hv⟩
  intro text cfg h
  refine ⟨LoadConfig_mandatory text cfg h, ?_⟩
  obtain ⟨text2, fctemps, e1, e2, _, hcfg, _, _⟩ := LoadConfig_ok _ _ h
  cases e1
  intro m hm
  rw [hcfg] at hm
  obtain ⟨tok, htok, rfl⟩ := List.mem_map.mp hm
  have hsp : ' ' ∉ tok.takeWhile (fun c => c ≠ '=') := fun hin =>
    mem_strtokAll fctemps tok htok ((List.takeWhile_sublist _).subset hin)
  have hvals : (LoadConfig.filled (LoadConfig.read text) tok).mintemp =
        atoi_and_free (get_matching_part (setting "MINTEMP=".toList text)
          (LoadConfig.filled (LoadConfig.read text) tok).pwm) ∧
      (LoadConfig.filled (LoadConfig.read text) tok).maxtemp =
        atoi_and_free (get_matching_part (setting "MAXTEMP=".toList text)
          (LoadConfig.filled (LoadConfig.read text) tok).pwm) ∧
      (LoadConfig.filled (LoadConfig.read text) tok).minstart =
        atoi_and_free (get_matching_part (setting "MINSTART=".toList text)
          (LoadConfig.filled (LoadConfig.read text) tok).pwm) ∧
      (LoadConfig.filled (LoadConfig.read text) tok).minstop =
        atoi_and_free (get_matching_part (setting "MINSTOP=".toList text)
          (LoadConfig.filled (LoadConfig.read text) tok).pwm) := by
    simp only [LoadConfig.filled, LoadConfig.keyed, read_mintemp, read_maxtemp, read_minstart,
      read_minstop, and_self]
  refine ⟨hvals, fun hlen => ⟨fun hn => ?_, fun hn => ?_, fun hn => ?_, fun hn => ?_⟩⟩
  · rw [hvals.1, get_matching_part_none _ _ hlen hsp hn]; rfl
  · rw [hvals.2.1, get_matching_part_none _ _ hlen hsp hn]; rfl
  · rw [hvals.2.2.1, get_matching_part_none _ _ hlen hsp hn]; rfl
  · rw [hvals.2.2.2, get_matching_part_none _ _ hlen hsp hn]; rfl

/-- Witness of C13: the text `exMissingEntries` meets the conditions, its
channel `pwm1` has no entry in `MAXTEMP`, `MINSTART` and `MINSTOP`, and it is
loaded with 0 for the three values. -/
theorem C13_missing_entry_is_zero_witness :
    (noEntry (setting "MAXTEMP=".toList exMissingEntries) "pwm1".toList ∧
      noEntry (setting "MINSTART=".toList exMissingEntries) "pwm1".toList ∧
      noEntry (setting "MINSTOP=".toList exMissingEntries) "pwm1".toList) ∧
    (LoadConfig.filled (LoadConfig.read exMissingEntries) "pwm1=temp1".toList).valid ∧
    LoadConfig (some exMissingEntries) = .returned 0 ⟨atoi "5".toList,
      (LoadConfig.read exMissingEntries).devpath, (LoadConfig.read exMissingEntries).devname,
      (strtokAll "pwm1=temp1".toList).map
        (LoadConfig.filled (LoadConfig.read exMissingEntries))⟩ ∧
    (strtokAll "pwm1=temp1".toList).map (LoadConfig.filled (LoadConfig.read exMissingEntries)) =
      [⟨"pwm1".toList, "temp1".toList, none, -10, 0, 0, 0, 0, 255⟩] ∧
    (setting "MINTEMP=".toList exMissingEntries ≠ none ∧
      setting "MAXTEMP=".toList exMissingEntries ≠ none ∧
      setting "MINSTART=".toList exMissingEntries ≠ none ∧
      setting "MINSTOP=".toList exMissingEntries ≠ none) :=
  ⟨⟨fun full h => by
      rw [show setting "MAXTEMP=".toList exMissingEntries = some "pwm2=60".toList by decide] at h
      cases h; decide,
    fun full h => by
      rw [show setting "MINSTART=".toList exMissingEntries = some "pwm2=150".toList
        by decide] at h
      cases h; decide,
    fun full h => by
      rw [show setting "MINSTOP=".toList exMissingEntries = some "pwm2=100".toList
        by decide] at h
      cases h; decide⟩,
    by decide,
    C13_missing_entry_is_zero.2 exMissingEntries "pwm1=temp1".toList "5".toList
      (by decide) (by decide) (by decide) (by decide) (by decide) (by decide) (by decide)
      (by decide) (by decide) (by decide)
      (fun tok _ fan h => by
        rw [show setting "FCFANS=".toList exMissingEntries = none by decide] at h
        cases h)
      (by decide),
    by decide,
    (C13_missing_entry_is_zero.1 exMissingEntries ⟨5, none, none,
      [⟨"pwm1".toList, "temp1".toList, none, -10, 0, 0, 0, 0, 255⟩]⟩ (by decide)).1⟩

/-- C14 (the code at the failing input): for keys of at most 62 bytes (without
space and `=`, as all keys of `FCTEMPS` are) `get_matching_part` is the lookup
of the specification. For the 63-byte key `exLongKey` the `=` does not fit
into the 64-byte buffer `search`: a token whose key is longer than `exLongKey`
is matched, and the value of the token with exactly this key is returned with
its `=` in front. -/
theorem C14_get_matching_part_truncates :
    (∀ list key, key.length ≤ 62 → ' ' ∉ key → '=' ∉ key →
      get_matching_part list key = get_matching_part_spec list key) ∧
    exLongKey.length = 63 ∧
    get_matching_part (some (exLongKey ++ "b=5".toList)) exLongKey = some "b=5".toList ∧
    get_matching_part_spec (some (exLongKey ++ "b=5".toList)) exLongKey = none ∧
    get_matching_part (some (exLongKey ++ "=20".toList)) exLongKey = some "=20".toList ∧
    get_matching_part_spec (some (exLongKey ++ "=20".toList)) exLongKey = some "20".toList := by
  refine ⟨get_matching_part_eq_spec, ?_, ?_, ?_, ?_, ?_⟩ <;> decide

set_option maxRecDepth 100000 in
/-- C15 (the code at the failing input): a text in which the `FCFANS` value
that `get_matching_part` finds for a channel of `FCTEMPS` contains `+` is never
loaded, and `LoadConfig` returns -1 for it when it has at most 32 channels (as
for the example text); for keys of at most 62 bytes that value is the one of
the `FCFANS` entry with exactly this key. And the `+` is the only way in which
`FCFANS` takes part in a rejection: two texts that agree in the settings
`INTERVAL`, `FCTEMPS`, `MINTEMP`, `MAXTEMP`, `MINSTART`, `MINSTOP`, `MINPWM`
and `MAXPWM` and differ in `FCFANS` in any way (present or absent, any fan
values), neither with a `+` in a value found for a channel, get the same
return value. For the 64-byte keys of `exLongFanGroup` the rejection fails:
the `FCFANS` entry of the channel `exKey1` is `fan1+fan3`, and the text is
loaded, with the fan `2=fan2` from the entry of `exKey2`. -/
theorem C15_fan_group :
    (∀ text fctemps tok fan, setting "FCTEMPS=".toList text = some fctemps →
      tok ∈ strtokAll fctemps →
      get_matching_part (setting "FCFANS=".toList text) (tok.takeWhile (fun c => c ≠ '=')) =
        some fan →
      '+' ∈ fan →
      (∀ cfg, LoadConfig (some text) ≠ .returned 0 cfg) ∧
      ((strtokAll fctemps).length ≤ MAXMAPPINGS →
        ∃ cfg, LoadConfig (some text) = .returned (-1) cfg)) ∧
    (∀ text fctemps tok fan, setting "FCTEMPS=".toList text = some fctemps →
      tok ∈ strtokAll fctemps → (tok.takeWhile (fun c => c ≠ '=')).length ≤ 62 →
      get_matching_part_spec (setting "FCFANS=".toList text)
        (tok.takeWhile (fun c => c ≠ '=')) = some fan →
      '+' ∈ fan →
      (∀ cfg, LoadConfig (some text) ≠ .returned 0 cfg) ∧
      ((strtokAll fctemps).length ≤ MAXMAPPINGS →
        ∃ cfg, LoadConfig (some text) = .returned (-1) cfg)) ∧
    (∀ text text2,
      (∀ pre ∈ LoadConfig.otherSettings, setting pre text = setting pre text2) →
      (∀ fctemps, setting "FCTEMPS=".toList text = some fctemps →
        ∀ tok ∈ strtokAll fctemps, ∀ fan,
          get_matching_part (setting "FCFANS=".toList text)
            (tok.takeWhile (fun c => c ≠ '=')) = some fan → '+' ∉ fan) →
      (∀ fctemps, setting "FCTEMPS=".toList text2 = some fctemps →
        ∀ tok ∈ strtokAll fctemps, ∀ fan,
          get_matching_part (setting "FCFANS=".toList text2)
            (tok.takeWhile (fun c => c ≠ '=')) = some fan → '+' ∉ fan) →
      (LoadConfig (some text)).code = (LoadConfig (some text2)).code) ∧
    LoadConfig (some exFanGroup) = .returned (-1) ⟨5, none, none,
      [⟨"pwm1".toList, "temp1".toList, some "fan1+fan2".toList,
        0, 0, 0, 0, 0, 255⟩]⟩ ∧
    (exKey1.length = 64 ∧
      setting "FCTEMPS=".toList exLongFanGroup =
        some (exKey1 ++ "=temp1 ".toList ++ exKey2 ++ "=temp2".toList) ∧
      setting "FCFANS=".toList exLongFanGroup =
        some (exKey2 ++ "=fan2 ".toList ++ exKey1 ++ "=fan1+fan3".toList) ∧
      get_matching_part_spec (setting "FCFANS=".toList exLongFanGroup) exKey1 =
        some "fan1+fan3".toList ∧
      get_matching_part (setting "FCFANS=".toList exLongFanGroup) exKey1 =
        some "2=fan2".toList ∧
      LoadConfig (some exLongFanGroup) = .returned 0 ⟨5, none, none,
        [⟨exKey1, "temp1".toList, some "2=fan2".toList, 1, 2, 1, 1, 0, 255⟩,
         ⟨exKey2, "temp2".toList, some "2=fan2".toList, 1, 2, 1, 1, 0, 255⟩]⟩) := by
  have hno : ∀ text fctemps tok fan, setting "FCTEMPS=".toList text = some fctemps →
      tok ∈ strtokAll fctemps →
      get_matching_part (setting "FCFANS=".toList text) (tok.takeWhile (fun c => c ≠ '=')) =
        some fan →
      '+' ∈ fan → ∀ cfg, LoadConfig (some text) ≠ .returned 0 cfg := by
    intro text fctemps tok fan hf htok hfan hin cfg hcfg
    exact LoadConfig_noplus text fctemps cfg hcfg hf tok htok fan hfan hin
  have hcode : ∀ text fctemps tok fan, setting "FCTEMPS=".toList text = some fctemps →
      tok ∈ strtokAll fctemps →
      get_matching_part (setting "FCFANS=".toList text) (tok.takeWhile (fun c => c ≠ '=')) =
        some fan →
      '+' ∈ fan →
      (∀ cfg, LoadConfig (some text) ≠ .returned 0 cfg) ∧
      ((strtokAll fctemps).length ≤ MAXMAPPINGS →
        ∃ cfg, LoadConfig (some text) = .returned (-1) cfg) := by
    intro text fctemps tok fan hf htok hfan hin
    refine ⟨hno text fctemps tok fan hf htok hfan hin, fun hlen => ?_⟩
    obtain ⟨code, cfg, hc⟩ := LoadConfig_defined text fctemps (by rw [read_fctemps, hf])
      (List.ne_nil_of_mem htok) hlen
    rcases LoadConfig_code _ _ _ hc with rfl | rfl
    · exact absurd hc (hno text fctemps tok fan hf htok hfan hin cfg)
    · exact ⟨cfg, hc⟩
  refine ⟨hcode, ?_, LoadConfig_code_congr, by decide, by decide, by decide, by decide,
    by decide, by decide, by decide⟩
  intro text fctemps tok fan hf htok hlen hfan hin
  have hsp : ' ' ∉ tok.takeWhile (fun c => c ≠ '=') := fun h =>
    mem_strtokAll fctemps tok htok ((List.takeWhile_sublist _).subset h)
  rw [← get_matching_part_eq_spec _ _ hlen hsp (not_mem_takeWhile tok '=')] at hfan
  exact hcode text fctemps tok fan hf htok hfan hin

/-- Witness of C15: the text `exFanGroup` is rejected; the texts `exFanText`
(with `FCFANS=pwm1=fan1`) and `exText` (without `FCFANS`) differ in the fan of
their channel and get the same return value, 0. -/
theorem C15_fan_group_witness :
    ((∀ cfg, LoadConfig (some exFanGroup) ≠ .returned 0 cfg) ∧
      ((strtokAll "pwm1=temp1".toList).length ≤ MAXMAPPINGS →
        ∃ cfg, LoadConfig (some exFanGroup) = .returned (-1) cfg)) ∧
    setting "FCFANS=".toList exFanText = some "pwm1=fan1".toList ∧
    setting "FCFANS=".toList exText = none ∧
    LoadConfig (some exFanText) = .returned 0 ⟨5, none, none,
      [⟨"pwm1".toList, "temp1".toList, some "fan1".toList, 20, 60, 150, 100, 0, 255⟩]⟩ ∧
    (LoadConfig (some exFanText)).code = (LoadConfig (some exText)).code ∧
    (LoadConfig (some exText)).code = some 0 :=
  ⟨C15_fan_group.2.1 exFanGroup "pwm1=temp1".toList "pwm1=temp1".toList
      "fan1+fan2".toList (by decide) (by decide) (by decide) (by decide) (by decide),
    by decide, by decide, by decide,
    C15_fan_group.2.2.1 exFanText exText (by decide)
      (fun fctemps hf tok htok fan hfan => by
        rw [show setting "FCTEMPS=".toList exFanText = some "pwm1=temp1".toList by decide] at hf
        cases hf
        rw [show strtokAll "pwm1=temp1".toList = ["pwm1=temp1".toList] by decide,
          List.mem_singleton] at htok
        subst htok
        rw [show get_matching_part (setting "FCFANS=".toList exFanText)
          ("pwm1=temp1".toList.takeWhile (fun c => c ≠ '=')) = some "fan1".toList
          by decide] at hfan
        cases hfan
        decide)
      (fun fctemps _ tok _ fan hfan => by
        rw [show setting "FCFANS=".toList exText = none by decide] at hfan
        cases hfan),
    by decide⟩

/-- C16 (counterexample): with the device hint `hwmon0=devices/virtual`, a
`name` file at `devices/virtual` (and none at `hwmon0`) and the pwm path
`devices/virtual/device/pwm1`, `FixupFiles` leaves the configuration as it is:
it is the text in front of the `=` that it takes as the device. -/
theorem C16_hinted_path_counterexample :
    exPathConfig.devpath = some "hwmon0=devices/virtual".toList ∧
    exPathMapping.pwm = "devices/virtual".toList ++ "/device/pwm1".toList ∧
    (fixedStore [("devices/virtual/name".toList, "it87\n".toList)] []).access ()
      "devices/virtual/name".toList Mode.F_OK = true ∧
    FixupFiles (fixedStore [("devices/virtual/name".toList, "it87\n".toList)] []) ()
      exPathConfig = some exPathConfig := by
  decide

/-- C16 (amended): `FixupFiles` goes through the device hints of `DEVPATH` in
order and takes the text in front of the `=` of a hint as the device. When for
no hint the file `device/name` exists, every path of the configuration is left
unchanged. In general (devices of at most 56 bytes, every entry with a fan
path) the result is the one of `fixupHints`: for every hint whose
`device/name` exists, in order, the bytes `/device` behind the first `device`
in front of `/device` are removed from each pwm, temp and fan path, so a path
`device/device/pwm1` becomes `device/pwm1`; a hint without that file changes
nothing. -/
theorem C16_FixupFiles {σ : Type} (io : Sysfs σ) (s : σ) (cfg : Config) (devpath : Str)
    (hd : cfg.devpath = some devpath) (hne : strtokAll devpath ≠ [])
    (heq : ∀ tok ∈ strtokAll devpath, '=' ∈ tok) :
    ((∀ tok ∈ strtokAll devpath,
        io.access s (snprintf64 (tok.takeWhile (fun c => c ≠ '=') ++ "/name".toList))
          Mode.F_OK = false) →
      FixupFiles io s cfg = some cfg) ∧
    ((∀ tok ∈ strtokAll devpath, (tok.takeWhile (fun c => c ≠ '=')).length ≤ 56) →
      (∀ m ∈ cfg.afc, m.fan ≠ none) →
      FixupFiles io s cfg =
        some { cfg with afc := fixupHints io s (strtokAll devpath) cfg.afc }) ∧
    (∀ device rest, dropDeviceSegment device (device ++ "/device".toList ++ rest) =
      device ++ rest) := by
  refine ⟨?_, fun hlen hf => FixupFiles_eq io s cfg devpath hd hne heq hlen hf,
    fun device rest => dropDeviceSegment_prefix device rest⟩
  intro h
  simp only [FixupFiles, hd]
  cases ht : strtokAll devpath with
  | nil => exact absurd ht hne
  | cons ptr rest =>
    simp only
    rw [← ht]
    exact FixupFiles_loop_unchanged io s _ cfg (fun tok htok => ⟨heq tok htok, h tok htok⟩)

/-- Witness of C16: with the hint `hwmon0=devices/virtual` and a file
`hwmon0/name`, the paths `hwmon0/device/...` lose their `/device`, and without
the file they stay; with the two hints of `exTwoHints` and a file `hwmon1/name`
only, the paths of `hwmon1` lose their `/device` and the ones of `hwmon0` stay. -/
theorem C16_FixupFiles_witness :
    FixupFiles (fixedStore [] []) () exOldConfig = some exOldConfig ∧
    FixupFiles (fixedStore [("hwmon0/name".toList, "it87\n".toList)] []) () exOldConfig =
      some ⟨10, some "hwmon0=devices/virtual".toList, none,
        [{ exOldMapping with
            pwm := "hwmon0/pwm1".toList, temp := "hwmon0/temp1_input".toList
            fan := some "hwmon0/fan1_input".toList }]⟩ ∧
    FixupFiles (fixedStore [("hwmon1/name".toList, "it87\n".toList)] []) () exTwoHints =
      some ⟨10, some "hwmon0=devices/a hwmon1=devices/b".toList, none,
        [{ exOldMapping with pwm := "hwmon0/device/pwm1".toList },
         { exOldMapping with
            pwm := "hwmon1/pwm1".toList, temp := "hwmon1/temp1_input".toList
            fan := some "hwmon1/fan1_input".toList }]⟩ :=
  ⟨(C16_FixupFiles (fixedStore [] []) () exOldConfig "hwmon0=devices/virtual".toList rfl
      (by decide) (by decide)).1 (by decide),
    ((C16_FixupFiles (fixedStore [("hwmon0/name".toList, "it87\n".toList)] []) () exOldConfig
      "hwmon0=devices/virtual".toList rfl (by decide) (by decide)).2.1 (by decide)
        (by decide)).trans (by decide),
    ((C16_FixupFiles (fixedStore [("hwmon1/name".toList, "it87\n".toList)] []) () exTwoHints
      "hwmon0=devices/a hwmon1=devices/b".toList rfl (by decide) (by decide)).2.1 (by decide)
        (by decide)).trans (by decide)⟩

/-- C17 (counterexample): the paths `hwmon0/devices/pwm1` and `hwmon0/device`
do not contain `hwmon0/device/`, and `FixupDeviceFiles("hwmon0")` changes them
to `hwmon0s/pwm1` and `hwmon0`. -/
theorem C17_devices_counterexample :
    strstr "hwmon0/devices/pwm1".toList "hwmon0/device/".toList = none ∧
    strstr "hwmon0/device".toList "hwmon0/device/".toList = none ∧
    exDevicesMapping.pwm = "hwmon0/devices/pwm1".toList ∧
    exDevicesMapping.temp = "hwmon0/device".toList ∧
    FixupDeviceFiles "hwmon0".toList ⟨10, none, none, [exDevicesMapping]⟩ =
      some ⟨10, none, none,
        [{ exDevicesMapping with pwm := "hwmon0s/pwm1".toList, temp := "hwmon0".toList }]⟩ := by
  decide

/-- C17 (amended): for a device of at most 56 bytes, `FixupDeviceFiles(device)`
changes a path iff it contains `device` with `/device` behind it (a `/` after
that is not asked for): a path without such an occurrence is left unchanged,
and otherwise the seven bytes `/device` behind the first such `device` are
removed, everything else being preserved. It does so for the pwm, temp and fan
path of every entry when all entries have a fan path. -/
theorem C17_FixupDeviceFiles (device : Str) (h : device.length ≤ 56) :
    (∀ path, FixupDeviceFiles.path device path = some (dropDeviceSegment device path)) ∧
    (∀ path, ¬ (device ++ "/device".toList) <:+: path → dropDeviceSegment device path = path) ∧
    (∀ path, (device ++ "/device".toList) <:+: path →
      dropDeviceSegment device path ≠ path ∧
      ∃ a b, path = a ++ device ++ "/device".toList ++ b ∧
        strstr path (device ++ "/device".toList) = some a.length ∧
        dropDeviceSegment device path = a ++ device ++ b) ∧
    (∀ cfg : Config, (∀ m ∈ cfg.afc, m.fan ≠ none) →
      FixupDeviceFiles device cfg =
        some { cfg with afc := cfg.afc.map (Mapping.dropDeviceSegment device) }) :=
  ⟨fun path => path_eq_dropDeviceSegment device path h,
    fun path hn => dropDeviceSegment_of_not_infix device path hn,
    fun path hi => ⟨dropDeviceSegment_ne device path hi,
      dropDeviceSegment_of_infix device path hi⟩,
    fun cfg hf => FixupDeviceFiles_eq device cfg h hf⟩

/-- Witness of C17: the device `hwmon0` and the channel `exOldMapping`. -/
theorem C17_FixupDeviceFiles_witness :
    FixupDeviceFiles.path "hwmon0".toList "hwmon0/device/pwm1".toList =
      some "hwmon0/pwm1".toList ∧
    FixupDeviceFiles.path "hwmon0".toList "hwmon1/device/pwm1".toList =
      some "hwmon1/device/pwm1".toList :=
  ⟨((C17_FixupDeviceFiles "hwmon0".toList (by decide)).1 "hwmon0/device/pwm1".toList).trans
      (by decide),
    ((C17_FixupDeviceFiles "hwmon0".toList (by decide)).1 "hwmon1/device/pwm1".toList).trans
      (by decide)⟩

/-- C18: the classification of the first pwm path `p` in `main`: the root `/`
iff `p` starts with `/`; otherwise the hwmon class directory iff `p` starts
with `hwmon`; otherwise the i2c devices directory iff `check_i2c_regex(p)`,
which holds exactly when `p` matches `^[0-9]+-`; otherwise `dir` stays NULL and
`main` returns 1. -/
theorem C18_sensor_root (p : Str) :
    (main.dir p = some "/".toList ↔ p.head? = some '/') ∧
    (p.head? ≠ some '/' →
      (main.dir p = some "/sys/class/hwmon".toList ↔ startswith p "hwmon".toList = true)) ∧
    (p.head? ≠ some '/' → startswith p "hwmon".toList = false →
      (main.dir p = some "/sys/bus/i2c/devices".toList ↔ check_i2c_regex p = true)) ∧
    (check_i2c_regex p = true ↔ matchesI2c p) ∧
    (p.head? ≠ some '/' → startswith p "hwmon".toList = false → check_i2c_regex p = false →
      main.dir p = none ∧ main.detect p = .error 1) ∧
    (main.dir p ≠ none → main.detect p = (main.dir p).elim (.error 1) .ok ∧
      ∃ dir, main.detect p = .ok dir) := by
  refine ⟨?_, ?_, ?_, check_i2c_regex_iff p, ?_, ?_⟩
  · unfold main.dir
    by_cases h1 : p.head? = some '/'
    · simp [h1]
    · by_cases h2 : startswith p "hwmon".toList = true
      · simp only [h1, h2, if_true, if_false, iff_false]
        decide
      · by_cases h3 : check_i2c_regex p = true
        · simp only [h1, h2, h3, if_true, if_false, iff_false]
          decide
        · simp [h1, h2, h3]
  · intro h1
    unfold main.dir
    by_cases h2 : startswith p "hwmon".toList = true
    · simp [h1, h2]
    · by_cases h3 : check_i2c_regex p = true
      · simp only [h1, h2, h3, if_true, if_false, iff_false]
        decide
      · simp [h1, h2, h3]
  · intro h1 h2
    unfold main.dir
    by_cases h3 : check_i2c_regex p = true
    · simp only [h1, h2, h3, if_true, if_false, Bool.false_eq_true]
    · simp only [h1, h2, h3, if_false, Bool.false_eq_true, reduceCtorEq]
  · intro h1 h2 h3
    have : main.dir p = none := by
      simp only [main.dir, h1, h2, h3, if_false, Bool.false_eq_true]
    exact ⟨this, by simp only [main.detect, this]⟩
  · intro h
    unfold main.detect
    cases hd : main.dir p with
    | none => exact absurd hd h
    | some dir => exact ⟨rfl, dir, rfl⟩

/-- Witness of C18: the four classes on concrete paths. -/
theorem C18_sensor_root_witness :
    main.dir "/sys/devices/pwm1".toList = some "/".toList ∧
    main.dir "hwmon0/pwm1".toList = some "/sys/class/hwmon".toList ∧
    main.dir "0-0290/pwm1".toList = some "/sys/bus/i2c/devices".toList ∧
    (main.dir "it87/pwm1".toList = none ∧ main.detect "it87/pwm1".toList = .error 1) :=
  ⟨(C18_sensor_root "/sys/devices/pwm1".toList).1.mpr (by decide),
    ((C18_sensor_root "hwmon0/pwm1".toList).2.1 (by decide)).mpr (by decide),
    ((C18_sensor_root "0-0290/pwm1".toList).2.2.1 (by decide) (by decide)).mpr (by decide),
    (C18_sensor_root "it87/pwm1".toList).2.2.2.2.1 (by decide) (by decide) (by decide)⟩

/-- C19: for an entry that satisfies the invariants of `LoadConfig`, with
`0 <= mintemp < maxtemp <= 1000`, and every reading `t` (32-bit or not): the products
`mintemp * 1000` and `maxtemp * 1000` and, in the interpolated branch, every
operation of the interpolation stay in the range of `int`; the duty cycle
`pwmval` lies in `[minpwm, maxpwm]`, hence in `[0, 255]`; and in the
interpolated branch it is the exact formula and lies in `[minstop, maxpwm - 1]`. -/
theorem C19_range_without_overflow (m : Mapping) (t : Int) (hv : m.valid)
    (h0 : 0 ≤ m.mintemp) (h1 : m.maxtemp ≤ 1000) :
    inInt32 (m.mintemp * 1000) ∧ inInt32 (m.maxtemp * 1000) ∧
    (mint m < t → t < maxt m → NoOverflow m t) ∧
    (m.minpwm ≤ pwmval m t ∧ pwmval m t ≤ m.maxpwm) ∧
    (0 ≤ pwmval m t ∧ pwmval m t ≤ 255) ∧
    (mint m < t → t < maxt m →
      pwmval m t = interpolateExact m t ∧
      m.minstop ≤ pwmval m t ∧ pwmval m t ≤ m.maxpwm - 1) := by
  obtain ⟨hv1, hv2, hv3, hv4, hv5⟩ := hv
  have hmin : inInt32 (m.mintemp * 1000) := by unfold inInt32; omega
  have hmax : inInt32 (m.maxtemp * 1000) := by unfold inInt32; omega
  have emin : mint m = m.mintemp * 1000 := wrap32_of_inInt32 hmin
  have emax : maxt m = m.maxtemp * 1000 := wrap32_of_inInt32 hmax
  have hno : mint m < t → t < maxt m → NoOverflow m t := by
    intro a b
    rw [emin] at a
    rw [emax] at b
    obtain ⟨b1, b2⟩ := interpolateExact_bounds m t a b hv4
    have hx : 0 ≤ t - m.mintemp * 1000 := by omega
    have hx2 : t - m.mintemp * 1000 ≤ 1000000 := by omega
    have hdd : 0 ≤ m.maxpwm - m.minstop := by omega
    have hdd2 : m.maxpwm - m.minstop ≤ 255 := by omega
    have hnum : 0 ≤ (t - m.mintemp * 1000) * (m.maxpwm - m.minstop) := Int.mul_nonneg hx hdd
    have hnum2 : (t - m.mintemp * 1000) * (m.maxpwm - m.minstop) ≤ 1000000 * 255 :=
      Int.mul_le_mul hx2 hdd2 hdd (by omega)
    have hq : Int.tdiv ((t - m.mintemp * 1000) * (m.maxpwm - m.minstop))
        (m.maxtemp * 1000 - m.mintemp * 1000) = interpolateExact m t - m.minstop := by
      unfold interpolateExact; omega
    refine ⟨hmin, hmax, ?_, ?_, ?_, ?_, ?_, ?_⟩
    · unfold inInt32; omega
    · unfold inInt32; omega
    · unfold inInt32; omega
    · unfold inInt32; omega
    · rw [hq]; unfold inInt32; omega
    · unfold inInt32; omega
  have hin : mint m < t → t < maxt m →
      pwmval m t = interpolateExact m t ∧
      m.minstop ≤ pwmval m t ∧ pwmval m t ≤ m.maxpwm - 1 := by
    intro a b
    have e : pwmval m t = interpolateExact m t := by
      simp only [pwmval, not_le.mpr a, ge_iff_le, not_le.mpr b, if_false]
      exact interpolate_eq_exact m t (hno a b)
    rw [emin] at a
    rw [emax] at b
    obtain ⟨b1, b2⟩ := interpolateExact_bounds m t a b hv4
    exact ⟨e, by omega, by omega⟩
  have hr : m.minpwm ≤ pwmval m t ∧ pwmval m t ≤ m.maxpwm := by
    by_cases a : t ≤ mint m
    · simp only [pwmval, a, if_true]; omega
    · by_cases b : maxt m ≤ t
      · simp only [pwmval, a, ge_iff_le, b, if_true, if_false]; omega
      · obtain ⟨_, c1, c2⟩ := hin (not_le.mp a) (not_le.mp b)
        omega
  exact ⟨hmin, hmax, hno, hr, by omega, hin⟩

/-- Witness of C19: the channel `20..60 °C, minstop 100, maxpwm 255` at 55 °C. -/
theorem C19_range_without_overflow_witness :
    NoOverflow ⟨"pwm1".toList, "temp1".toList, none, 20, 60, 150, 100, 0, 255⟩ 55000 ∧
    pwmval ⟨"pwm1".toList, "temp1".toList, none, 20, 60, 150, 100, 0, 255⟩ 55000 = 235 :=
  ⟨(C19_range_without_overflow ⟨"pwm1".toList, "temp1".toList, none, 20, 60, 150, 100, 0, 255⟩
      55000 (by decide) (by decide) (by decide)).2.2.1 (by decide) (by decide),
    by decide⟩

/-- C20: for an entry that satisfies the invariants of `LoadConfig`, when no
operation overflows (the products `mintemp * 1000`, `maxtemp * 1000`, and the
interpolation at every reading that falls into the interpolated branch), the
duty cycle `pwmval` does not decrease when the temperature rises. -/
theorem C20_monotone (m : Mapping) (t1 t2 : Int) (hv : m.valid)
    (hmin : inInt32 (m.mintemp * 1000)) (hmax : inInt32 (m.maxtemp * 1000))
    (hno1 : mint m < t1 → t1 < maxt m → NoOverflow m t1)
    (hno2 : mint m < t2 → t2 < maxt m → NoOverflow m t2)
    (h : t1 ≤ t2) :
    pwmval m t1 ≤ pwmval m t2 := by
  obtain ⟨hv1, hv2, hv3, hv4, hv5⟩ := hv
  have emin : mint m = m.mintemp * 1000 := wrap32_of_inInt32 hmin
  have emax : maxt m = m.maxtemp * 1000 := wrap32_of_inInt32 hmax
  have hin : ∀ t, mint m < t → t < maxt m → NoOverflow m t →
      pwmval m t = interpolateExact m t := by
    intro t a b hno
    simp only [pwmval, not_le.mpr a, ge_iff_le, not_le.mpr b, if_false]
    exact interpolate_eq_exact m t hno
  by_cases a1 : t1 ≤ mint m
  · have e1 : pwmval m t1 = m.minpwm := by simp only [pwmval, a1, if_true]
    by_cases a2 : t2 ≤ mint m
    · have e2 : pwmval m t2 = m.minpwm := by simp only [pwmval, a2, if_true]
      omega
    · by_cases b2 : maxt m ≤ t2
      · have e2 : pwmval m t2 = m.maxpwm := by
          simp only [pwmval, a2, ge_iff_le, b2, if_true, if_false]
        omega
      · rw [e1, hin t2 (not_le.mp a2) (not_le.mp b2) (hno2 (not_le.mp a2) (not_le.mp b2))]
        rw [emin] at a2
        rw [emax] at b2
        obtain ⟨c1, _⟩ := interpolateExact_bounds m t2 (not_le.mp a2) (not_le.mp b2) hv4
        omega
  · have a2 : ¬ t2 ≤ mint m := by omega
    by_cases b1 : maxt m ≤ t1
    · have b2 : maxt m ≤ t2 := by omega
      have e1 : pwmval m t1 = m.maxpwm := by
        simp only [pwmval, a1, ge_iff_le, b1, if_true, if_false]
      have e2 : pwmval m t2 = m.maxpwm := by
        simp only [pwmval, a2, ge_iff_le, b2, if_true, if_false]
      omega
    · rw [hin t1 (not_le.mp a1) (not_le.mp b1) (hno1 (not_le.mp a1) (not_le.mp b1))]
      by_cases b2 : maxt m ≤ t2
      · have e2 : pwmval m t2 = m.maxpwm := by
          simp only [pwmval, a2, ge_iff_le, b2, if_true, if_false]
        rw [e2]
        rw [emin] at a1
        rw [emax] at b1
        obtain ⟨_, c2⟩ := interpolateExact_bounds m t1 (not_le.mp a1) (not_le.mp b1) hv4
        omega
      · rw [hin t2 (not_le.mp a2) (not_le.mp b2) (hno2 (not_le.mp a2) (not_le.mp b2))]
        rw [emin] at a1
        rw [emax] at b2
        exact interpolateExact_mono m t1 t2 h (not_le.mp a1) (not_le.mp b2) hv4

/-- Witness of C20: 45 °C and 55 °C on the channel `exMapping`. -/
theorem C20_monotone_witness :
    pwmval exMapping 45000 ≤ pwmval exMapping 55000 ∧
    pwmval exMapping 45000 = 116 ∧ pwmval exMapping 55000 = 150 :=
  ⟨C20_monotone exMapping 45000 55000 (by decide) (by decide) (by decide)
      (fun _ _ => by decide) (fun _ _ => by decide) (by decide),
    by decide, by decide⟩

end Fancontrol
